import Mathlib

/-!
# Auto-instrumentation injection for .NET (pkg/instrumentation/dotnet.go) and the
# scrape-target identity (cmd/otel-allocator/target/target.go)

A shallow embedding of `injectDotNetSDK` and `setDotNetEnvVar` (namespace
`Instrumentation`) and of `NewItem` and `Item.Hash` (namespace `Target`).

* Go slices are Lean lists; a write through `container := &pod.Spec.Containers[index]`
  is a `List.set` at `index` of the returned pod.
* Go `int` is `Int`; an out-of-range slice index panics, which is the `none` result
  of `injectDotNetSDK`.
* A Go `error` is `Option String`: `none` is `nil`, `some msg` carries the message.
* The embedding is by value: the result of a call is the pod it returns.
* The Kubernetes API types are modelled with the fields the engine reads or writes.
-/

set_option autoImplicit false

namespace Instrumentation

/-! ## Data model -/

/-- The corev1.EnvVarSource record: where a non-literal env value comes from.
The engine only tests whether one is set. -/
structure EnvVarSource where
  FieldRef : Option String := none
  ResourceFieldRef : Option String := none
  ConfigMapKeyRef : Option String := none
  SecretKeyRef : Option String := none
  deriving DecidableEq, Repr

/-- The corev1.EnvVar record. -/
structure EnvVar where
  Name : String
  Value : String := ""
  ValueFrom : Option EnvVarSource := none
  deriving DecidableEq, Repr

/-- The corev1.VolumeMount record. -/
structure VolumeMount where
  Name : String
  MountPath : String
  deriving DecidableEq, Repr

/-- The corev1.EmptyDirVolumeSource record. -/
structure EmptyDirVolumeSource where
  Medium : String := ""
  SizeLimit : Option String := none
  deriving DecidableEq, Repr

/-- The corev1.VolumeSource record, restricted to the empty-directory source. -/
structure VolumeSource where
  EmptyDir : Option EmptyDirVolumeSource := none
  deriving DecidableEq, Repr

/-- The corev1.Volume record. -/
structure Volume where
  Name : String
  VolumeSource : VolumeSource := {}
  deriving DecidableEq, Repr

/-- The corev1.Container record. -/
structure Container where
  Name : String := ""
  Image : String := ""
  Command : List String := []
  Env : List EnvVar := []
  VolumeMounts : List VolumeMount := []
  deriving DecidableEq, Repr

/-- The corev1.PodSpec record. -/
structure PodSpec where
  Volumes : List Volume := []
  InitContainers : List Container := []
  Containers : List Container := []
  deriving DecidableEq, Repr

/-- The corev1.Pod record. -/
structure Pod where
  Spec : PodSpec := {}
  deriving DecidableEq, Repr

/-- The v1alpha1.DotNet instrumentation descriptor: an image reference and an env list. -/
structure DotNet where
  Image : String := ""
  Env : List EnvVar := []
  deriving DecidableEq, Repr

/-! ## Constants (dotnet.go, lines 26-41) -/

def envDotNetCoreClrEnableProfiling : String := "CORECLR_ENABLE_PROFILING"
def envDotNetCoreClrProfiler : String := "CORECLR_PROFILER"
def envDotNetCoreClrProfilerPath : String := "CORECLR_PROFILER_PATH"
def envDotNetAdditionalDeps : String := "DOTNET_ADDITIONAL_DEPS"
def envDotNetSharedStore : String := "DOTNET_SHARED_STORE"
def envDotNetStartupHook : String := "DOTNET_STARTUP_HOOKS"
def envDotNetOTelAutoHome : String := "OTEL_DOTNET_AUTO_HOME"
def dotNetCoreClrEnableProfilingEnabled : String := "1"
def dotNetCoreClrProfilerId : String := "\x7b918728DD-259F-4A6A-AC2B-B85E1B658318\x7d"
def dotNetCoreClrProfilerPath : String :=
  "/otel-auto-instrumentation/OpenTelemetry.AutoInstrumentation.Native.so"
def dotNetAdditionalDepsPath : String := "/otel-auto-instrumentation/AdditionalDeps"
def dotNetOTelAutoHomePath : String := "/otel-auto-instrumentation"
def dotNetSharedStorePath : String := "/otel-auto-instrumentation/store"
def dotNetStartupHookPath : String :=
  "/otel-auto-instrumentation/net/OpenTelemetry.AutoInstrumentation.StartupHook.dll"

/-- Message of the error returned at dotnet.go line 56. -/
def errHomeInContainer : String :=
  "OTEL_DOTNET_AUTO_HOME environment variable is already set in the container"

/-- Message of the error returned at dotnet.go line 62. -/
def errHomeInSpec : String :=
  "OTEL_DOTNET_AUTO_HOME environment variable is already set in the .NET instrumentation spec"

/-! ## Helpers of the package that dotnet.go calls -/

/-- Modelled from the spec: `getIndexOfEnv` is called by dotnet.go but defined elsewhere in
the package. The spec describes it as "locate by name" over an ordered sequence of
(name, value) pairs; dotnet.go compares its result with `-1`, so it is the position of the
first entry with that name, or `-1` when there is none. This is the scan from position `i`. -/
def getIndexOfEnvFrom (name : String) : List EnvVar → Int → Int
  | [], _ => -1
  | e :: rest, i => if e.Name = name then i else getIndexOfEnvFrom name rest (i + 1)

/-- Modelled from the spec: `getIndexOfEnv`, the position of the first entry named `name`
in `envs`, or `-1` when no entry has that name. -/
def getIndexOfEnv (envs : List EnvVar) (name : String) : Int :=
  getIndexOfEnvFrom name envs 0

/-- Modelled from the spec: the message of the error that `validateContainerEnv` returns
for the variable `name` (the spec's `ReservedVariableConflict`). -/
def errReservedVariableConflict (name : String) : String :=
  "the container defines env var value via ValueFrom, envVar: " ++ name

/-- Modelled from the spec: `validateContainerEnv` is called by dotnet.go but defined
elsewhere in the package. Spec 4.1: fail "if any of a small fixed set of variables the engine
intends to fully own ... appear pre-populated in the container in a way the merge step cannot
safely reconcile". The merge step joins onto the literal `Value` of the first entry of that
name, so the entry it cannot reconcile is one whose value is given by a `ValueFrom` source.
The names are checked in the order given. -/
def validateContainerEnv (envs : List EnvVar) : List String → Option String
  | [] => none
  | name :: rest =>
    let idx := getIndexOfEnv envs name
    if 0 ≤ idx then
      match envs[idx.toNat]? with
      | some e =>
        if e.ValueFrom.isSome then some (errReservedVariableConflict e.Name)
        else validateContainerEnv envs rest
      | none => validateContainerEnv envs rest
    else validateContainerEnv envs rest

/-- Modelled from the spec: `isInitContainerMissing` is called by dotnet.go but defined
elsewhere in the package, and `initContainerName` is a constant of the package whose value
is not in dotnet.go (it is a parameter here). Spec 4.4: the per-pod step is "gated on
'no init container with the engine's reserved name exists yet'". -/
def isInitContainerMissing (initContainerName : String) (pod : Pod) : Bool :=
  pod.Spec.InitContainers.all (fun c => decide (c.Name ≠ initContainerName))

/-! ## dotnet.go -/

/-- The function `setDotNetEnvVar` (dotnet.go, lines 121-133); `fmt.Sprintf("%s:%s", a, b)`
is `a ++ ":" ++ b`. -/
def setDotNetEnvVar (container : Container) (envVarName envVarValue : String)
    (concatValues : Bool) : Container :=
  let idx := getIndexOfEnv container.Env envVarName
  if idx < 0 then
    { container with
      Env := container.Env ++ [{ Name := envVarName, Value := envVarValue }] }
  else if concatValues then
    { container with
      Env := container.Env.modify
        (fun e => { e with Value := e.Value ++ ":" ++ envVarValue }) idx.toNat }
  else container

/-- One iteration of the loop at dotnet.go lines 66-71: a descriptor entry is appended when
the container has no entry of that name. -/
def injectSpecEnvVar (container : Container) (env : EnvVar) : Container :=
  let idx := getIndexOfEnv container.Env env.Name
  if idx = -1 then { container with Env := container.Env ++ [env] } else container

/-- The loop at dotnet.go lines 66-71 over the descriptor's env list. -/
def injectSpecEnv (container : Container) (envs : List EnvVar) : Container :=
  envs.foldl injectSpecEnvVar container

/-- The seven `setDotNetEnvVar` calls at dotnet.go lines 78-90, in source order. -/
def applyDotNetEnvVars (container : Container) : Container :=
  let container := setDotNetEnvVar container envDotNetCoreClrEnableProfiling
    dotNetCoreClrEnableProfilingEnabled false
  let container := setDotNetEnvVar container envDotNetCoreClrProfiler
    dotNetCoreClrProfilerId false
  let container := setDotNetEnvVar container envDotNetCoreClrProfilerPath
    dotNetCoreClrProfilerPath false
  let container := setDotNetEnvVar container envDotNetStartupHook
    dotNetStartupHookPath true
  let container := setDotNetEnvVar container envDotNetAdditionalDeps
    dotNetAdditionalDepsPath true
  let container := setDotNetEnvVar container envDotNetOTelAutoHome
    dotNetOTelAutoHomePath false
  setDotNetEnvVar container envDotNetSharedStore dotNetSharedStorePath true

/-- The container-scoped mutation of `injectDotNetSDK` (dotnet.go, lines 65-95): descriptor
env merge, the seven policy rows, then the volume mount. `volumeName` is a constant of the
package whose value is not in dotnet.go. -/
def injectContainer (volumeName : String) (dotNetSpec : DotNet) (container : Container) :
    Container :=
  let container := injectSpecEnv container dotNetSpec.Env
  let container := applyDotNetEnvVars container
  { container with
    VolumeMounts := container.VolumeMounts ++
      [{ Name := volumeName, MountPath := "/otel-auto-instrumentation" }] }

/-- The pod-scoped step of `injectDotNetSDK` (dotnet.go, lines 97-114). -/
def injectInitContainer (volumeName initContainerName : String) (dotNetSpec : DotNet)
    (pod : Pod) : Pod :=
  if isInitContainerMissing initContainerName pod then
    { pod with
      Spec := { pod.Spec with
        Volumes := pod.Spec.Volumes ++
          [{ Name := volumeName, VolumeSource := { EmptyDir := some {} } }]
        InitContainers := pod.Spec.InitContainers ++
          [{ Name := initContainerName
             Image := dotNetSpec.Image
             Command := ["cp", "-a", "/autoinstrumentation/.", "/otel-auto-instrumentation/"]
             VolumeMounts :=
               [{ Name := volumeName, MountPath := "/otel-auto-instrumentation" }] }] } }
  else pod

/-- The function `injectDotNetSDK` (dotnet.go, lines 43-116). The result is `none` when
`pod.Spec.Containers[index]` panics, and otherwise the returned pair of pod and error.
`volumeName` and `initContainerName` are constants of the package whose values are not in
dotnet.go; they are parameters. -/
def injectDotNetSDK (volumeName initContainerName : String) (dotNetSpec : DotNet) (pod : Pod)
    (index : Int) : Option (Pod × Option String) :=
  if h : 0 ≤ index ∧ index.toNat < pod.Spec.Containers.length then
    let container := pod.Spec.Containers.get ⟨index.toNat, h.2⟩
    match validateContainerEnv container.Env
        [envDotNetStartupHook, envDotNetAdditionalDeps, envDotNetSharedStore] with
    | some err => some (pod, some err)
    | none =>
      if getIndexOfEnv container.Env envDotNetOTelAutoHome > -1 then
        some (pod, some errHomeInContainer)
      else if getIndexOfEnv dotNetSpec.Env envDotNetOTelAutoHome > -1 then
        some (pod, some errHomeInSpec)
      else
        let container := injectContainer volumeName dotNetSpec container
        let pod : Pod :=
          { pod with
            Spec := { pod.Spec with
              Containers := pod.Spec.Containers.set index.toNat container } }
        some (injectInitContainer volumeName initContainerName dotNetSpec pod, none)
  else none

/-! ## Predicates used to state the properties -/

/-- Position `k` holds the first entry of `envs` named `n`. -/
def FirstAt (envs : List EnvVar) (n : String) (k : Nat) : Prop :=
  (∃ e, envs[k]? = some e ∧ e.Name = n) ∧
    ∀ (j : Nat) (e : EnvVar), j < k → envs[j]? = some e → e.Name ≠ n

/-- The engine-owned variables that are joined with a colon (dotnet.go, lines 84-90). -/
def concatEnvNames : List String :=
  [envDotNetStartupHook, envDotNetAdditionalDeps, envDotNetSharedStore]

/-- The seven engine-owned variable names, in the order of dotnet.go lines 78-90. -/
def engineEnvNames : List String :=
  [envDotNetCoreClrEnableProfiling, envDotNetCoreClrProfiler, envDotNetCoreClrProfilerPath,
   envDotNetStartupHook, envDotNetAdditionalDeps, envDotNetOTelAutoHome, envDotNetSharedStore]

/-- An original entry `e` and the entry `e'` found at its position afterwards: same name,
same `ValueFrom`, and the same entry altogether unless the name is colon-joined. -/
def EntryKept (e e' : EnvVar) : Prop :=
  e'.Name = e.Name ∧ e'.ValueFrom = e.ValueFrom ∧ (e.Name ∉ concatEnvNames → e' = e)

/-- Every position of `old` is still there in `new`, holding an entry kept in the sense
of `EntryKept`. -/
def EnvPreserved (old new : List EnvVar) : Prop :=
  ∀ (k : Nat) (e : EnvVar), old[k]? = some e → ∃ e', new[k]? = some e' ∧ EntryKept e e'

/-- The volume appended by the pod-scoped step (dotnet.go, lines 99-103). -/
def sharedVolume (volumeName : String) : Volume :=
  { Name := volumeName, VolumeSource := { EmptyDir := some {} } }

/-- The init container appended by the pod-scoped step (dotnet.go, lines 105-113). -/
def sharedInitContainer (volumeName initContainerName : String) (dotNetSpec : DotNet) :
    Container :=
  { Name := initContainerName
    Image := dotNetSpec.Image
    Command := ["cp", "-a", "/autoinstrumentation/.", "/otel-auto-instrumentation/"]
    VolumeMounts := [{ Name := volumeName, MountPath := "/otel-auto-instrumentation" }] }

/-- The value of variable `n` in `envs`: the value of the first entry named `n`. -/
def envValue (envs : List EnvVar) (n : String) : Option String :=
  (envs.find? (fun e => decide (e.Name = n))).map (fun e => e.Value)

/-- Every entry of `new` either has no `ValueFrom` source or shares its name and its
`ValueFrom` with an entry of `src`. -/
def FromSources (src new : List EnvVar) : Prop :=
  ∀ e' ∈ new,
    e'.ValueFrom = none ∨ ∃ d ∈ src, d.Name = e'.Name ∧ d.ValueFrom = e'.ValueFrom

/-- The descriptor entries that the merge loop appends, in descriptor order: an entry is
taken when its name is neither in `names` (the names the container defines) nor the name of
an earlier descriptor entry. -/
def mergedEntries (names : List String) : List EnvVar → List EnvVar
  | [] => []
  | d :: rest =>
    if d.Name ∈ names then mergedEntries names rest
    else d :: mergedEntries (names ++ [d.Name]) rest

/-! ## Concrete inputs -/

/-- A pod with one container `app` that has no env entries. -/
def cleanPod : Pod := { Spec := { Containers := [{ Name := "app" }] } }

/-- A descriptor with image `agent:1.0` and the single env entry `FOO=bar`. -/
def fooSpec : DotNet := { Image := "agent:1.0", Env := [{ Name := "FOO", Value := "bar" }] }

/-- A pod whose container `app` already carries the home marker. -/
def markedPod : Pod :=
  { Spec := { Containers :=
      [{ Name := "app", Env := [{ Name := "OTEL_DOTNET_AUTO_HOME", Value := "/x" }] }] } }

/-- A pod whose container `app` defines `DOTNET_STARTUP_HOOKS` through a `ValueFrom` source
and carries no home marker. -/
def valueFromPod : Pod :=
  { Spec := { Containers :=
      [{ Name := "app"
         Env := [{ Name := "DOTNET_STARTUP_HOOKS"
                   ValueFrom := some { ConfigMapKeyRef := some "hooks" } }] }] } }

/-- A descriptor that defines `DOTNET_STARTUP_HOOKS` through a `ValueFrom` source. -/
def valueFromSpec : DotNet :=
  { Image := "agent:1.0"
    Env := [{ Name := "DOTNET_STARTUP_HOOKS"
              ValueFrom := some { ConfigMapKeyRef := some "hooks" } }] }

/-- A pod whose container `app` sets `DOTNET_STARTUP_HOOKS=/a` and `FOO=mine`. -/
def hookPod : Pod :=
  { Spec := { Containers :=
      [{ Name := "app"
         Env := [{ Name := "DOTNET_STARTUP_HOOKS", Value := "/a" },
                 { Name := "FOO", Value := "mine" }] }] } }

/-- A descriptor that sets `DOTNET_STARTUP_HOOKS=/x` and `FOO=bar`. -/
def hookSpec : DotNet :=
  { Image := "agent:1.0"
    Env := [{ Name := "DOTNET_STARTUP_HOOKS", Value := "/x" },
            { Name := "FOO", Value := "bar" }] }

/-- A container whose env list is `X=1, P=/a, P=/c`. -/
def pathContainer : Container :=
  { Name := "app"
    Env := [{ Name := "X", Value := "1" }, { Name := "P", Value := "/a" },
            { Name := "P", Value := "/c" }] }

/-- A pod with two containers, `app` and `sidecar`, and no init container. -/
def twoPod : Pod :=
  { Spec := { Containers :=
      [{ Name := "app", Env := [{ Name := "DOTNET_STARTUP_HOOKS", Value := "/a" }] },
       { Name := "sidecar" }] } }

/-- A pod that already has an init container named `init`, and one container `app`. -/
def initPod : Pod :=
  { Spec := { InitContainers := [{ Name := "init", Image := "other:2.0" }]
              Containers := [{ Name := "app" }] } }

/-- A descriptor that sets `DOTNET_STARTUP_HOOKS=/x`, `A=1` and `A=2`. -/
def dupSpec : DotNet :=
  { Image := "agent:1.0"
    Env := [{ Name := "DOTNET_STARTUP_HOOKS", Value := "/x" }, { Name := "A", Value := "1" },
            { Name := "A", Value := "2" }] }

end Instrumentation

namespace Target

/-! ## Library functions that target.go calls -/

/-- The bytes of a Go string, its UTF-8 encoding, as numbers below 256. -/
def stringBytes (s : String) : List Nat :=
  (s.data.flatMap String.utf8EncodeChar).map UInt8.toNat

/-- The type `model.LabelSet` of prometheus/common, a Go map from label name to label value,
given by its entries. The names of a map are pairwise distinct (see `WellFormed`); the order
of the entries stands for the unspecified iteration order of the map. -/
structure LabelSet where
  entries : List (String × String)
  deriving DecidableEq, Repr

/-- The keys of the map. -/
def LabelSet.names (ls : LabelSet) : List String := ls.entries.map Prod.fst

/-- The lookup `ls[name]` on an entry list; the zero value `""` when the name is absent. -/
def entryValue : List (String × String) → String → String
  | [], _ => ""
  | (k, v) :: rest, name => if k = name then v else entryValue rest name

/-- The Go expression `ls[name]`. -/
def LabelSet.value (ls : LabelSet) (name : String) : String := entryValue ls.entries name

/-- The assignment `ls[name] = value` on an entry list. -/
def setEntry : List (String × String) → String → String → List (String × String)
  | [], name, value => [(name, value)]
  | (k, v) :: rest, name, value =>
    if k = name then (k, value) :: rest else (k, v) :: setEntry rest name value

/-- The Go statement `ls[name] = value`. -/
def LabelSet.set (ls : LabelSet) (name value : String) : LabelSet :=
  { entries := setEntry ls.entries name value }

/-- The label set built by inserting the given labels, one after the other, into an empty
map. -/
def LabelSet.ofPairs (pairs : List (String × String)) : LabelSet :=
  pairs.foldl (fun ls pair => ls.set pair.1 pair.2) { entries := [] }

/-- The order used by `sort.Sort(labelNames)`: Go compares strings byte by byte, which on
UTF-8 strings is the lexicographic order of the code points. -/
def nameLE (a b : String) : Prop := a.data.map Char.toNat ≤ b.data.map Char.toNat

instance nameLE.decidable : DecidableRel nameLE :=
  fun a b => inferInstanceAs (Decidable (a.data.map Char.toNat ≤ b.data.map Char.toNat))

/-- The constant `offset64` of the FNV-1a hash in prometheus/common (model/fnv.go). -/
def offset64 : Nat := 14695981039346656037

/-- The constant `prime64` of the FNV-1a hash in prometheus/common (model/fnv.go). -/
def prime64 : Nat := 1099511628211

/-- The function `hashNew` of model/fnv.go. -/
def hashNew : Nat := offset64

/-- The function `hashAddByte` of model/fnv.go, on `uint64`: xor, then multiply. -/
def hashAddByte (h b : Nat) : Nat := ((h ^^^ b) * prime64) % 2 ^ 64

/-- The function `hashAdd` of model/fnv.go: `hashAddByte` over the bytes of the string. -/
def hashAdd (h : Nat) (s : String) : Nat := (stringBytes s).foldl hashAddByte h

/-- The constant `model.SeparatorByte`. -/
def SeparatorByte : Nat := 255

/-- The variable `emptyLabelSignature` of model/signature.go. -/
def emptyLabelSignature : Nat := hashNew

/-- The function `labelSetToFingerprint` of model/signature.go: the label names are sorted,
and name, separator, value, separator are hashed for each. -/
def labelSetToFingerprint (ls : LabelSet) : Nat :=
  if ls.entries.length = 0 then emptyLabelSignature
  else
    (ls.names.insertionSort nameLE).foldl
      (fun sum labelName =>
        hashAddByte (hashAdd (hashAddByte (hashAdd sum labelName) SeparatorByte)
          (ls.value labelName)) SeparatorByte)
      hashNew

/-- The method `model.LabelSet.Fingerprint`. -/
def LabelSet.Fingerprint (ls : LabelSet) : Nat := labelSetToFingerprint ls

/-- One lower-case hexadecimal digit. -/
def hexDigit (d : Nat) : Char := if d < 10 then Char.ofNat (48 + d) else Char.ofNat (87 + d)

/-- The `w` lowest hexadecimal digits of `n`, most significant first. -/
def hexDigits : Nat → Nat → List Char
  | 0, _ => []
  | w + 1, n => hexDigits w (n / 16) ++ [hexDigit (n % 16)]

/-- The method `model.Fingerprint.String`: `fmt.Sprintf("%016x", uint64(f))`. -/
def Fingerprint.String (f : Nat) : String := String.mk (hexDigits 16 f)

/-- One upper-case hexadecimal digit, as in `upperhex` of net/url. -/
def upperHexDigit (d : Nat) : Char := if d < 10 then Char.ofNat (48 + d) else Char.ofNat (55 + d)

/-- The function `shouldEscape` of net/url in the mode `encodeQueryComponent`: letters, digits
and `-`, `_`, `.`, `~` are kept. -/
def shouldEscape (c : Nat) : Bool :=
  !((97 ≤ c && c ≤ 122) || (65 ≤ c && c ≤ 90) || (48 ≤ c && c ≤ 57) ||
    c = 45 || c = 95 || c = 46 || c = 126)

/-- The function `url.QueryEscape`: a space becomes `+`, any other byte that must be escaped
becomes `%` and two upper-case hexadecimal digits. -/
def QueryEscape (s : String) : String :=
  String.mk ((stringBytes s).flatMap (fun c =>
    if shouldEscape c then
      if c = 32 then ['+'] else ['%', upperHexDigit (c / 16), upperHexDigit (c % 16)]
    else [Char.ofNat c]))

/-! ## target.go -/

/-- The type `LinkJSON` (target.go, lines 25-27). -/
structure LinkJSON where
  Link : String
  deriving DecidableEq, Repr

/-- The type `Item` (target.go, lines 29-35). -/
structure Item where
  JobName : String
  Link : LinkJSON
  TargetURL : String
  Label : LabelSet
  CollectorName : String
  deriving DecidableEq, Repr

/-- The method `Item.Hash` (target.go, lines 37-39). -/
def Item.Hash (t : Item) : String :=
  t.JobName ++ t.TargetURL ++ Fingerprint.String t.Label.Fingerprint

/-- The function `NewItem` (target.go, lines 41-49); `fmt.Sprintf("/jobs/%s/targets", x)` is
`"/jobs/" ++ x ++ "/targets"`. -/
def NewItem (jobName targetURL : String) (label : LabelSet) (collectorName : String) : Item :=
  { JobName := jobName
    Link := { Link := "/jobs/" ++ QueryEscape jobName ++ "/targets" }
    TargetURL := targetURL
    Label := label
    CollectorName := collectorName }

/-! ## Predicates used to state the properties -/

/-- The entry list is one of a map: its names are pairwise distinct. -/
def WellFormed (ls : LabelSet) : Prop := ls.names.Nodup

/-- The two label sets have the same names and differ in the value of exactly one label. -/
def DiffersInOneValue (l1 l2 : LabelSet) : Prop :=
  (∀ n, n ∈ l1.names ↔ n ∈ l2.names) ∧
    ∃ n ∈ l1.names, l1.value n ≠ l2.value n ∧ ∀ n', n' ≠ n → l1.value n' = l2.value n'

end Target

namespace Instrumentation

/-! ## Lemmas on `getIndexOfEnv` -/

theorem getIndexOfEnvFrom_cases (n : String) (envs : List EnvVar) (i : Int) :
    (getIndexOfEnvFrom n envs i = -1 ∧ ∀ e ∈ envs, e.Name ≠ n) ∨
      ∃ k : Nat, getIndexOfEnvFrom n envs i = i + k ∧ FirstAt envs n k := by
  induction envs generalizing i with
  | nil => left; simp [getIndexOfEnvFrom]
  | cons e rest ih =>
    by_cases h : e.Name = n
    · right
      refine ⟨0, by simp [getIndexOfEnvFrom, h], ⟨e, by simp, h⟩, ?_⟩
      intro j e' hj; omega
    · rcases ih (i + 1) with ⟨h1, h2⟩ | ⟨k, h1, ⟨e1, he1, hn1⟩, h3⟩
      · left
        refine ⟨by simp [getIndexOfEnvFrom, h, h1], ?_⟩
        intro e' he'
        rcases List.mem_cons.mp he' with rfl | hm
        · exact h
        · exact h2 e' hm
      · right
        refine ⟨k + 1, ?_, ⟨e1, by simpa using he1, hn1⟩, ?_⟩
        · simp only [getIndexOfEnvFrom, h, if_false, h1]; push_cast; omega
        · intro j e' hj hje
          cases j with
          | zero => simp at hje; subst hje; exact h
          | succ j =>
            have hje' : rest[j]? = some e' := by simpa using hje
            exact h3 j e' (by omega) hje'

theorem getIndexOfEnv_cases (envs : List EnvVar) (n : String) :
    (getIndexOfEnv envs n = -1 ∧ ∀ e ∈ envs, e.Name ≠ n) ∨
      ∃ k : Nat, getIndexOfEnv envs n = k ∧ FirstAt envs n k := by
  have := getIndexOfEnvFrom_cases n envs 0
  simpa [getIndexOfEnv] using this

theorem FirstAt.unique {envs : List EnvVar} {n : String} {k k' : Nat}
    (h : FirstAt envs n k) (h' : FirstAt envs n k') : k = k' := by
  obtain ⟨⟨e, he, hn⟩, hf⟩ := h
  obtain ⟨⟨e', he', hn'⟩, hf'⟩ := h'
  rcases Nat.lt_trichotomy k k' with hlt | heq | hgt
  · exact absurd hn (hf' k e hlt he)
  · exact heq
  · exact absurd hn' (hf k' e' hgt he')

theorem FirstAt.hasEntry {envs : List EnvVar} {n : String} {k : Nat}
    (h : FirstAt envs n k) : ∃ e ∈ envs, e.Name = n := by
  obtain ⟨⟨e, he, hn⟩, _⟩ := h
  exact ⟨e, List.getElem?_mem he, hn⟩

theorem getIndexOfEnv_of_not_mem {envs : List EnvVar} {n : String}
    (h : ∀ e ∈ envs, e.Name ≠ n) : getIndexOfEnv envs n = -1 := by
  rcases getIndexOfEnv_cases envs n with ⟨h1, _⟩ | ⟨k, _, hk⟩
  · exact h1
  · obtain ⟨e, he, hn⟩ := hk.hasEntry
    exact absurd hn (h e he)

theorem getIndexOfEnv_of_firstAt {envs : List EnvVar} {n : String} {k : Nat}
    (h : FirstAt envs n k) : getIndexOfEnv envs n = k := by
  rcases getIndexOfEnv_cases envs n with ⟨_, h2⟩ | ⟨k', h1, hk'⟩
  · obtain ⟨e, he, hn⟩ := h.hasEntry
    exact absurd hn (h2 e he)
  · rw [h1, h.unique hk']

theorem getIndexOfEnv_of_mem {envs : List EnvVar} {n : String}
    (h : ∃ e ∈ envs, e.Name = n) :
    ∃ k : Nat, getIndexOfEnv envs n = k ∧ FirstAt envs n k := by
  rcases getIndexOfEnv_cases envs n with ⟨_, h2⟩ | hk
  · obtain ⟨e, he, hn⟩ := h
    exact absurd hn (h2 e he)
  · exact hk

theorem getIndexOfEnv_gt_iff (envs : List EnvVar) (n : String) :
    getIndexOfEnv envs n > -1 ↔ ∃ e ∈ envs, e.Name = n := by
  constructor
  · intro h
    rcases getIndexOfEnv_cases envs n with ⟨h1, _⟩ | ⟨k, _, hk⟩
    · omega
    · exact hk.hasEntry
  · intro h
    obtain ⟨k, hk, _⟩ := getIndexOfEnv_of_mem h
    omega

/-! ## Lemmas on `EnvPreserved` -/

theorem EntryKept.same (e : EnvVar) : EntryKept e e := ⟨rfl, rfl, fun _ => rfl⟩

theorem EntryKept.chain {a b c : EnvVar} (h1 : EntryKept a b) (h2 : EntryKept b c) :
    EntryKept a c := by
  obtain ⟨n1, v1, k1⟩ := h1
  obtain ⟨n2, v2, k2⟩ := h2
  refine ⟨n2.trans n1, v2.trans v1, fun h => ?_⟩
  have hb := k1 h
  subst hb
  exact k2 h

theorem EnvPreserved.self (l : List EnvVar) : EnvPreserved l l :=
  fun _ e h => ⟨e, h, EntryKept.same e⟩

theorem EnvPreserved.comp {a b c : List EnvVar} (h1 : EnvPreserved a b)
    (h2 : EnvPreserved b c) : EnvPreserved a c := by
  intro k e he
  obtain ⟨e1, he1, k1⟩ := h1 k e he
  obtain ⟨e2, he2, k2⟩ := h2 k e1 he1
  exact ⟨e2, he2, k1.chain k2⟩

theorem getElem?_lt_of_eq_some {l : List EnvVar} {k : Nat} {e : EnvVar}
    (h : l[k]? = some e) : k < l.length := by
  by_contra hlt
  rw [List.getElem?_eq_none (by omega)] at h
  cases h

theorem getElem?_lt_of_eq_some_container {l : List Container} {k : Nat} {c : Container}
    (h : l[k]? = some c) : k < l.length := by
  by_contra hlt
  rw [List.getElem?_eq_none (by omega)] at h
  cases h

theorem EnvPreserved.append (l s : List EnvVar) : EnvPreserved l (l ++ s) := by
  intro k e he
  refine ⟨e, ?_, EntryKept.same e⟩
  rw [List.getElem?_append_left (getElem?_lt_of_eq_some he)]
  exact he

theorem EnvPreserved.modify_concat (l : List EnvVar) (k : Nat) (v : String)
    (hk : ∀ e, l[k]? = some e → e.Name ∈ concatEnvNames) :
    EnvPreserved l (l.modify (fun e => { e with Value := e.Value ++ ":" ++ v }) k) := by
  intro j e he
  by_cases hjk : j = k
  · subst hjk
    refine ⟨{ e with Value := e.Value ++ ":" ++ v }, ?_, rfl, rfl, ?_⟩
    · rw [List.getElem?_modify_eq, he]; rfl
    · intro hn
      exact absurd (hk e he) hn
  · refine ⟨e, ?_, EntryKept.same e⟩
    rw [List.getElem?_modify_ne _ _ (fun h => hjk h.symm)]
    exact he

theorem EnvPreserved.length_le {old new : List EnvVar} (h : EnvPreserved old new) :
    old.length ≤ new.length := by
  by_contra hlt
  have hpos : new.length < old.length := by omega
  have hget : old[new.length]? = some (old[new.length]) := List.getElem?_eq_getElem hpos
  obtain ⟨e', he', _⟩ := h _ _ hget
  have := getElem?_lt_of_eq_some he'
  omega

theorem EnvPreserved.keepsName {old new : List EnvVar} (h : EnvPreserved old new) {n : String}
    (hn : ∃ e ∈ old, e.Name = n) : ∃ e ∈ new, e.Name = n := by
  obtain ⟨e, he, hen⟩ := hn
  obtain ⟨k, hk⟩ := List.getElem?_of_mem he
  obtain ⟨e', he', hname, _⟩ := h k e hk
  exact ⟨e', List.getElem?_mem he', hname.trans hen⟩

theorem EnvPreserved.firstAt {old new : List EnvVar} (h : EnvPreserved old new) {n : String}
    {k : Nat} (hk : FirstAt old n k) : FirstAt new n k := by
  obtain ⟨⟨e, he, hen⟩, hf⟩ := hk
  obtain ⟨e', he', hname, _⟩ := h k e he
  refine ⟨⟨e', he', hname.trans hen⟩, ?_⟩
  intro j x hj hx
  have hjlt : j < old.length := by
    have := getElem?_lt_of_eq_some he
    omega
  have hget : old[j]? = some (old[j]) := List.getElem?_eq_getElem hjlt
  obtain ⟨x', hx', hxname, _⟩ := h j _ hget
  rw [hx] at hx'
  cases hx'
  rw [hxname]
  exact hf j _ hj hget

/-! ## Lemmas on `setDotNetEnvVar` -/

theorem setDotNetEnvVar_absent (c : Container) (n v : String) (b : Bool)
    (h : ∀ e ∈ c.Env, e.Name ≠ n) :
    setDotNetEnvVar c n v b = { c with Env := c.Env ++ [{ Name := n, Value := v }] } := by
  simp [setDotNetEnvVar, getIndexOfEnv_of_not_mem h]

theorem setDotNetEnvVar_concat_firstAt (c : Container) (n v : String) (k : Nat)
    (h : FirstAt c.Env n k) :
    setDotNetEnvVar c n v true =
      { c with Env := c.Env.modify (fun e => { e with Value := e.Value ++ ":" ++ v }) k } := by
  have hk : getIndexOfEnv c.Env n = k := getIndexOfEnv_of_firstAt h
  have hnot : ¬ ((k : Int) < 0) := by omega
  simp [setDotNetEnvVar, hk, hnot]

theorem setDotNetEnvVar_keep_present (c : Container) (n v : String)
    (h : ∃ e ∈ c.Env, e.Name = n) : setDotNetEnvVar c n v false = c := by
  obtain ⟨k, hk, _⟩ := getIndexOfEnv_of_mem h
  have hnot : ¬ ((k : Int) < 0) := by omega
  simp [setDotNetEnvVar, hk, hnot]

theorem setDotNetEnvVar_frame (c : Container) (n v : String) (b : Bool) :
    (setDotNetEnvVar c n v b).Name = c.Name ∧ (setDotNetEnvVar c n v b).Image = c.Image ∧
      (setDotNetEnvVar c n v b).Command = c.Command ∧
      (setDotNetEnvVar c n v b).VolumeMounts = c.VolumeMounts := by
  unfold setDotNetEnvVar
  simp only []
  split
  · exact ⟨rfl, rfl, rfl, rfl⟩
  · split <;> exact ⟨rfl, rfl, rfl, rfl⟩

theorem setDotNetEnvVar_preserved (c : Container) (n v : String) (b : Bool)
    (hb : b = true → n ∈ concatEnvNames) :
    EnvPreserved c.Env (setDotNetEnvVar c n v b).Env := by
  rcases getIndexOfEnv_cases c.Env n with ⟨_, h2⟩ | ⟨k, _, hk⟩
  · rw [setDotNetEnvVar_absent c n v b h2]
    exact EnvPreserved.append _ _
  · cases b with
    | false =>
      rw [setDotNetEnvVar_keep_present c n v hk.hasEntry]
      exact EnvPreserved.self _
    | true =>
      rw [setDotNetEnvVar_concat_firstAt c n v k hk]
      apply EnvPreserved.modify_concat
      intro e he
      obtain ⟨⟨e', he', hn⟩, _⟩ := hk
      rw [he] at he'
      cases he'
      rw [hn]
      exact hb rfl

theorem setDotNetEnvVar_mem (c : Container) (n v : String) (b : Bool) :
    ∃ e ∈ (setDotNetEnvVar c n v b).Env, e.Name = n := by
  rcases getIndexOfEnv_cases c.Env n with ⟨_, h2⟩ | ⟨k, _, hk⟩
  · rw [setDotNetEnvVar_absent c n v b h2]
    exact ⟨{ Name := n, Value := v }, by simp, rfl⟩
  · cases b with
    | false =>
      rw [setDotNetEnvVar_keep_present c n v hk.hasEntry]
      exact hk.hasEntry
    | true =>
      rw [setDotNetEnvVar_concat_firstAt c n v k hk]
      obtain ⟨⟨e, he, hn⟩, _⟩ := hk
      refine ⟨{ e with Value := e.Value ++ ":" ++ v }, ?_, hn⟩
      apply List.getElem?_mem (n := k)
      show (c.Env.modify (fun e => { e with Value := e.Value ++ ":" ++ v }) k)[k]? = _
      rw [List.getElem?_modify_eq, he]
      rfl

/-! ## Lemmas on the descriptor env merge -/

theorem injectSpecEnvVar_frame (c : Container) (env : EnvVar) :
    (injectSpecEnvVar c env).Name = c.Name ∧ (injectSpecEnvVar c env).Image = c.Image ∧
      (injectSpecEnvVar c env).Command = c.Command ∧
      (injectSpecEnvVar c env).VolumeMounts = c.VolumeMounts := by
  unfold injectSpecEnvVar
  simp only []
  split <;> exact ⟨rfl, rfl, rfl, rfl⟩

theorem injectSpecEnvVar_absent (c : Container) (env : EnvVar)
    (h : ∀ e ∈ c.Env, e.Name ≠ env.Name) :
    injectSpecEnvVar c env = { c with Env := c.Env ++ [env] } := by
  simp [injectSpecEnvVar, getIndexOfEnv_of_not_mem h]

theorem injectSpecEnvVar_present (c : Container) (env : EnvVar)
    (h : ∃ e ∈ c.Env, e.Name = env.Name) : injectSpecEnvVar c env = c := by
  obtain ⟨k, hk, _⟩ := getIndexOfEnv_of_mem h
  have hne : ¬ ((k : Int) = -1) := by omega
  simp [injectSpecEnvVar, hk, hne]

theorem injectSpecEnvVar_suffix (c : Container) (env : EnvVar) :
    ∃ s, (injectSpecEnvVar c env).Env = c.Env ++ s := by
  rcases getIndexOfEnv_cases c.Env env.Name with ⟨_, h2⟩ | ⟨k, _, hk⟩
  · rw [injectSpecEnvVar_absent c env h2]
    exact ⟨[env], rfl⟩
  · rw [injectSpecEnvVar_present c env hk.hasEntry]
    exact ⟨[], by simp⟩

theorem injectSpecEnv_frame (c : Container) (envs : List EnvVar) :
    (injectSpecEnv c envs).Name = c.Name ∧ (injectSpecEnv c envs).Image = c.Image ∧
      (injectSpecEnv c envs).Command = c.Command ∧
      (injectSpecEnv c envs).VolumeMounts = c.VolumeMounts := by
  induction envs generalizing c with
  | nil => exact ⟨rfl, rfl, rfl, rfl⟩
  | cons env rest ih =>
    obtain ⟨h1, h2, h3, h4⟩ := ih (injectSpecEnvVar c env)
    obtain ⟨g1, g2, g3, g4⟩ := injectSpecEnvVar_frame c env
    exact ⟨h1.trans g1, h2.trans g2, h3.trans g3, h4.trans g4⟩

theorem injectSpecEnv_suffix (c : Container) (envs : List EnvVar) :
    ∃ s, (injectSpecEnv c envs).Env = c.Env ++ s := by
  induction envs generalizing c with
  | nil => exact ⟨[], by simp [injectSpecEnv]⟩
  | cons env rest ih =>
    obtain ⟨s1, hs1⟩ := injectSpecEnvVar_suffix c env
    obtain ⟨s2, hs2⟩ := ih (injectSpecEnvVar c env)
    refine ⟨s1 ++ s2, ?_⟩
    have : injectSpecEnv c (env :: rest) = injectSpecEnv (injectSpecEnvVar c env) rest := rfl
    rw [this, hs2, hs1, List.append_assoc]

theorem injectSpecEnv_preserved (c : Container) (envs : List EnvVar) :
    EnvPreserved c.Env (injectSpecEnv c envs).Env := by
  obtain ⟨s, hs⟩ := injectSpecEnv_suffix c envs
  rw [hs]
  exact EnvPreserved.append _ _

theorem injectSpecEnv_fresh (c : Container) (envs : List EnvVar)
    (hnodup : (envs.map (fun e => e.Name)).Nodup)
    (hdisj : ∀ e ∈ c.Env, ∀ d ∈ envs, e.Name ≠ d.Name) :
    injectSpecEnv c envs = { c with Env := c.Env ++ envs } := by
  induction envs generalizing c with
  | nil => simp [injectSpecEnv]
  | cons env rest ih =>
    have hstep : injectSpecEnv c (env :: rest) = injectSpecEnv (injectSpecEnvVar c env) rest :=
      rfl
    have habs : ∀ e ∈ c.Env, e.Name ≠ env.Name := fun e he => hdisj e he env (by simp)
    rw [hstep, injectSpecEnvVar_absent c env habs]
    rw [List.map_cons, List.nodup_cons] at hnodup
    rw [ih _ hnodup.2]
    · simp
    · intro e he d hd
      simp only [List.mem_append, List.mem_singleton] at he
      rcases he with he | rfl
      · exact hdisj e he d (by simp [hd])
      · intro heq
        exact hnodup.1 (List.mem_map.mpr ⟨d, hd, heq.symm⟩)

/-! ## Lemmas on the seven policy rows -/

theorem applyDotNetEnvVars_frame (c : Container) :
    (applyDotNetEnvVars c).Name = c.Name ∧ (applyDotNetEnvVars c).Image = c.Image ∧
      (applyDotNetEnvVars c).Command = c.Command ∧
      (applyDotNetEnvVars c).VolumeMounts = c.VolumeMounts := by
  unfold applyDotNetEnvVars
  simp only []
  refine ⟨?_, ?_, ?_, ?_⟩
  · simp only [(setDotNetEnvVar_frame _ _ _ _).1]
  · simp only [(setDotNetEnvVar_frame _ _ _ _).2.1]
  · simp only [(setDotNetEnvVar_frame _ _ _ _).2.2.1]
  · simp only [(setDotNetEnvVar_frame _ _ _ _).2.2.2]

theorem applyDotNetEnvVars_preserved (c : Container) :
    EnvPreserved c.Env (applyDotNetEnvVars c).Env := by
  unfold applyDotNetEnvVars
  simp only []
  refine EnvPreserved.comp ?_
    (setDotNetEnvVar_preserved _ _ _ true (fun _ => by simp [concatEnvNames]))
  refine EnvPreserved.comp ?_ (setDotNetEnvVar_preserved _ _ _ false (by simp))
  refine EnvPreserved.comp ?_
    (setDotNetEnvVar_preserved _ _ _ true (fun _ => by simp [concatEnvNames]))
  refine EnvPreserved.comp ?_
    (setDotNetEnvVar_preserved _ _ _ true (fun _ => by simp [concatEnvNames]))
  refine EnvPreserved.comp ?_ (setDotNetEnvVar_preserved _ _ _ false (by simp))
  refine EnvPreserved.comp ?_ (setDotNetEnvVar_preserved _ _ _ false (by simp))
  exact setDotNetEnvVar_preserved _ _ _ false (by simp)

theorem applyDotNetEnvVars_mem_home (c : Container) :
    ∃ e ∈ (applyDotNetEnvVars c).Env, e.Name = envDotNetOTelAutoHome := by
  unfold applyDotNetEnvVars
  simp only []
  exact (setDotNetEnvVar_preserved _ _ _ true (fun _ => by simp [concatEnvNames])).keepsName
    (setDotNetEnvVar_mem _ _ _ false)

theorem not_mem_append_entry {l : List EnvVar} {n m v : String}
    (h : ∀ e ∈ l, e.Name ≠ n) (hm : m ≠ n) :
    ∀ e ∈ l ++ [({ Name := m, Value := v } : EnvVar)], e.Name ≠ n := by
  intro e he
  simp only [List.mem_append, List.mem_singleton] at he
  rcases he with he | rfl
  · exact h e he
  · exact hm

theorem applyDotNetEnvVars_fresh (c : Container)
    (h : ∀ e ∈ c.Env, e.Name ∉ engineEnvNames) :
    applyDotNetEnvVars c =
      { c with
        Env := c.Env ++
          [{ Name := envDotNetCoreClrEnableProfiling,
             Value := dotNetCoreClrEnableProfilingEnabled },
           { Name := envDotNetCoreClrProfiler, Value := dotNetCoreClrProfilerId },
           { Name := envDotNetCoreClrProfilerPath, Value := dotNetCoreClrProfilerPath },
           { Name := envDotNetStartupHook, Value := dotNetStartupHookPath },
           { Name := envDotNetAdditionalDeps, Value := dotNetAdditionalDepsPath },
           { Name := envDotNetOTelAutoHome, Value := dotNetOTelAutoHomePath },
           { Name := envDotNetSharedStore, Value := dotNetSharedStorePath }] } := by
  have hn : ∀ n ∈ engineEnvNames, ∀ e ∈ c.Env, e.Name ≠ n := by
    intro n hn e he heq
    exact h e he (heq ▸ hn)
  have h1 := hn envDotNetCoreClrEnableProfiling (by simp [engineEnvNames])
  have h2 := hn envDotNetCoreClrProfiler (by simp [engineEnvNames])
  have h3 := hn envDotNetCoreClrProfilerPath (by simp [engineEnvNames])
  have h4 := hn envDotNetStartupHook (by simp [engineEnvNames])
  have h5 := hn envDotNetAdditionalDeps (by simp [engineEnvNames])
  have h6 := hn envDotNetOTelAutoHome (by simp [engineEnvNames])
  have h7 := hn envDotNetSharedStore (by simp [engineEnvNames])
  unfold applyDotNetEnvVars
  simp only []
  rw [setDotNetEnvVar_absent c _ _ _ h1]
  rw [setDotNetEnvVar_absent _ envDotNetCoreClrProfiler dotNetCoreClrProfilerId false
    (not_mem_append_entry h2
      (show envDotNetCoreClrEnableProfiling ≠ envDotNetCoreClrProfiler by decide))]
  rw [setDotNetEnvVar_absent _ envDotNetCoreClrProfilerPath dotNetCoreClrProfilerPath false
    (not_mem_append_entry
    (not_mem_append_entry h3
      (show envDotNetCoreClrEnableProfiling ≠ envDotNetCoreClrProfilerPath by decide))
      (show envDotNetCoreClrProfiler ≠ envDotNetCoreClrProfilerPath by decide))]
  rw [setDotNetEnvVar_absent _ envDotNetStartupHook dotNetStartupHookPath true
    (not_mem_append_entry
    (not_mem_append_entry
    (not_mem_append_entry h4
      (show envDotNetCoreClrEnableProfiling ≠ envDotNetStartupHook by decide))
      (show envDotNetCoreClrProfiler ≠ envDotNetStartupHook by decide))
      (show envDotNetCoreClrProfilerPath ≠ envDotNetStartupHook by decide))]
  rw [setDotNetEnvVar_absent _ envDotNetAdditionalDeps dotNetAdditionalDepsPath true
    (not_mem_append_entry
    (not_mem_append_entry
    (not_mem_append_entry
    (not_mem_append_entry h5
      (show envDotNetCoreClrEnableProfiling ≠ envDotNetAdditionalDeps by decide))
      (show envDotNetCoreClrProfiler ≠ envDotNetAdditionalDeps by decide))
      (show envDotNetCoreClrProfilerPath ≠ envDotNetAdditionalDeps by decide))
      (show envDotNetStartupHook ≠ envDotNetAdditionalDeps by decide))]
  rw [setDotNetEnvVar_absent _ envDotNetOTelAutoHome dotNetOTelAutoHomePath false
    (not_mem_append_entry
    (not_mem_append_entry
    (not_mem_append_entry
    (not_mem_append_entry
    (not_mem_append_entry h6
      (show envDotNetCoreClrEnableProfiling ≠ envDotNetOTelAutoHome by decide))
      (show envDotNetCoreClrProfiler ≠ envDotNetOTelAutoHome by decide))
      (show envDotNetCoreClrProfilerPath ≠ envDotNetOTelAutoHome by decide))
      (show envDotNetStartupHook ≠ envDotNetOTelAutoHome by decide))
      (show envDotNetAdditionalDeps ≠ envDotNetOTelAutoHome by decide))]
  rw [setDotNetEnvVar_absent _ envDotNetSharedStore dotNetSharedStorePath true
    (not_mem_append_entry
    (not_mem_append_entry
    (not_mem_append_entry
    (not_mem_append_entry
    (not_mem_append_entry
    (not_mem_append_entry h7
      (show envDotNetCoreClrEnableProfiling ≠ envDotNetSharedStore by decide))
      (show envDotNetCoreClrProfiler ≠ envDotNetSharedStore by decide))
      (show envDotNetCoreClrProfilerPath ≠ envDotNetSharedStore by decide))
      (show envDotNetStartupHook ≠ envDotNetSharedStore by decide))
      (show envDotNetAdditionalDeps ≠ envDotNetSharedStore by decide))
      (show envDotNetOTelAutoHome ≠ envDotNetSharedStore by decide))]
  simp

/-! ## Lemmas on `injectContainer` and `injectInitContainer` -/

theorem injectContainer_env (vn : String) (spec : DotNet) (c : Container) :
    (injectContainer vn spec c).Env = (applyDotNetEnvVars (injectSpecEnv c spec.Env)).Env := by
  unfold injectContainer
  simp only []

theorem injectContainer_preserved (vn : String) (spec : DotNet) (c : Container) :
    EnvPreserved c.Env (injectContainer vn spec c).Env := by
  rw [injectContainer_env]
  exact (injectSpecEnv_preserved c spec.Env).comp (applyDotNetEnvVars_preserved _)

theorem injectContainer_mem_home (vn : String) (spec : DotNet) (c : Container) :
    ∃ e ∈ (injectContainer vn spec c).Env, e.Name = envDotNetOTelAutoHome := by
  rw [injectContainer_env]
  exact applyDotNetEnvVars_mem_home _

theorem injectInitContainer_containers (vn icn : String) (spec : DotNet) (pod : Pod) :
    (injectInitContainer vn icn spec pod).Spec.Containers = pod.Spec.Containers := by
  unfold injectInitContainer
  split <;> rfl

theorem isInitContainerMissing_congr (icn : String) (pod pod' : Pod)
    (h : pod'.Spec.InitContainers = pod.Spec.InitContainers) :
    isInitContainerMissing icn pod' = isInitContainerMissing icn pod := by
  simp [isInitContainerMissing, h]

theorem isInitContainerMissing_injectInitContainer (vn icn : String) (spec : DotNet)
    (pod : Pod) : isInitContainerMissing icn (injectInitContainer vn icn spec pod) = false := by
  unfold injectInitContainer
  split
  · simp [isInitContainerMissing]
  · rename_i h
    simpa using h

/-! ## Unfolding `injectDotNetSDK` -/

theorem injectDotNetSDK_inRange (vn icn : String) (spec : DotNet) (pod : Pod) (index : Int)
    (c : Container) (h0 : 0 ≤ index) (hc : pod.Spec.Containers[index.toNat]? = some c) :
    injectDotNetSDK vn icn spec pod index =
      match validateContainerEnv c.Env concatEnvNames with
      | some err => some (pod, some err)
      | none =>
        if getIndexOfEnv c.Env envDotNetOTelAutoHome > -1 then
          some (pod, some errHomeInContainer)
        else if getIndexOfEnv spec.Env envDotNetOTelAutoHome > -1 then
          some (pod, some errHomeInSpec)
        else
          some (injectInitContainer vn icn spec
            { pod with
              Spec := { pod.Spec with
                Containers := pod.Spec.Containers.set index.toNat
                  (injectContainer vn spec c) } }, none) := by
  have hlt : index.toNat < pod.Spec.Containers.length := by
    by_contra hge
    rw [List.getElem?_eq_none (by omega)] at hc
    cases hc
  have hget : pod.Spec.Containers.get ⟨index.toNat, hlt⟩ = c := by
    rw [List.getElem?_eq_getElem hlt] at hc
    exact Option.some.inj hc
  unfold injectDotNetSDK
  rw [dif_pos ⟨h0, hlt⟩]
  simp only [hget]
  rfl

theorem injectDotNetSDK_isSome (vn icn : String) (spec : DotNet) (pod : Pod) (index : Int)
    (r : Pod × Option String) (h : injectDotNetSDK vn icn spec pod index = some r) :
    0 ≤ index ∧ ∃ c, pod.Spec.Containers[index.toNat]? = some c := by
  unfold injectDotNetSDK at h
  split at h
  · rename_i hr
    exact ⟨hr.1, _, List.getElem?_eq_getElem hr.2⟩
  · cases h

theorem injectDotNetSDK_success (vn icn : String) (spec : DotNet) (pod : Pod) (index : Int)
    (p : Pod) (h : injectDotNetSDK vn icn spec pod index = some (p, none)) :
    0 ≤ index ∧ ∃ c, pod.Spec.Containers[index.toNat]? = some c ∧
      validateContainerEnv c.Env concatEnvNames = none ∧
      (¬ ∃ e ∈ c.Env, e.Name = envDotNetOTelAutoHome) ∧
      (¬ ∃ e ∈ spec.Env, e.Name = envDotNetOTelAutoHome) ∧
      p = injectInitContainer vn icn spec
        { pod with
          Spec := { pod.Spec with
            Containers := pod.Spec.Containers.set index.toNat (injectContainer vn spec c) } } := by
  obtain ⟨h0, c, hc⟩ := injectDotNetSDK_isSome vn icn spec pod index _ h
  refine ⟨h0, c, hc, ?_⟩
  rw [injectDotNetSDK_inRange vn icn spec pod index c h0 hc] at h
  split at h
  · simp at h
  · rename_i hv
    split at h
    · simp at h
    · rename_i h1
      split at h
      · simp at h
      · rename_i h2
        simp only [Option.some.injEq, Prod.mk.injEq, and_true] at h
        exact ⟨hv, fun hm => h1 ((getIndexOfEnv_gt_iff _ _).mpr hm),
          fun hm => h2 ((getIndexOfEnv_gt_iff _ _).mpr hm), h.symm⟩

theorem injectDotNetSDK_success_container (vn icn : String) (spec : DotNet) (pod : Pod)
    (index : Int) (p : Pod) (c : Container)
    (h : injectDotNetSDK vn icn spec pod index = some (p, none))
    (hc : pod.Spec.Containers[index.toNat]? = some c) :
    p.Spec.Containers[index.toNat]? = some (injectContainer vn spec c) := by
  obtain ⟨_, c', hc', _, _, _, hp⟩ := injectDotNetSDK_success vn icn spec pod index p h
  rw [hc] at hc'
  cases hc'
  rw [hp, injectInitContainer_containers]
  exact List.getElem?_set_self (getElem?_lt_of_eq_some_container hc)

/-! ## Lemmas on `validateContainerEnv` -/

theorem validateContainerEnv_eq_none_iff (envs : List EnvVar) (names : List String) :
    validateContainerEnv envs names = none ↔
      ∀ n ∈ names, ∀ (k : Nat) (e : EnvVar), FirstAt envs n k → envs[k]? = some e →
        e.ValueFrom = none := by
  induction names with
  | nil => simp [validateContainerEnv]
  | cons name rest ih =>
    rcases getIndexOfEnv_cases envs name with ⟨h1, h2⟩ | ⟨k, h1, hk⟩
    · have hstep : validateContainerEnv envs (name :: rest) = validateContainerEnv envs rest := by
        simp [validateContainerEnv, h1]
      rw [hstep, ih]
      constructor
      · intro h n hn k e hf he
        rcases List.mem_cons.mp hn with rfl | hn
        · obtain ⟨x, hx, hxn⟩ := hf.hasEntry
          exact absurd hxn (h2 x hx)
        · exact h n hn k e hf he
      · intro h n hn
        exact h n (List.mem_cons_of_mem _ hn)
    · obtain ⟨⟨e, he, hen⟩, hfirst⟩ := hk
      have hk : FirstAt envs name k := ⟨⟨e, he, hen⟩, hfirst⟩
      have hpos : (0 : Int) ≤ (k : Int) := by omega
      by_cases hvf : e.ValueFrom = none
      · have hstep : validateContainerEnv envs (name :: rest) =
            validateContainerEnv envs rest := by
          simp [validateContainerEnv, h1, he, hvf]
        rw [hstep, ih]
        constructor
        · intro h n hn k' e' hf he'
          rcases List.mem_cons.mp hn with rfl | hn
          · have hkk : k' = k := hf.unique hk
            subst hkk
            rw [he] at he'
            cases he'
            exact hvf
          · exact h n hn k' e' hf he'
        · intro h n hn
          exact h n (List.mem_cons_of_mem _ hn)
      · have hsome : e.ValueFrom.isSome = true := by
          cases hv : e.ValueFrom with
          | none => exact absurd hv hvf
          | some _ => rfl
        have hstep : validateContainerEnv envs (name :: rest) =
            some (errReservedVariableConflict e.Name) := by
          simp [validateContainerEnv, h1, he, hsome]
        rw [hstep]
        constructor
        · intro h
          cases h
        · intro h
          exact absurd (h name (List.mem_cons_self _ _) k e hk he) hvf

/-! ## Where the `ValueFrom` sources of the resulting env come from -/

theorem FromSources.base (l s : List EnvVar) : FromSources (l ++ s) l :=
  fun e he => Or.inr ⟨e, List.mem_append_left _ he, rfl, rfl⟩

theorem FromSources.append_entry {src l : List EnvVar} (h : FromSources src l) (x : EnvVar)
    (hx : x.ValueFrom = none ∨ ∃ d ∈ src, d.Name = x.Name ∧ d.ValueFrom = x.ValueFrom) :
    FromSources src (l ++ [x]) := by
  intro e he
  simp only [List.mem_append, List.mem_singleton] at he
  rcases he with he | rfl
  · exact h e he
  · exact hx

theorem FromSources.modify_value {src l : List EnvVar} (h : FromSources src l) (k : Nat)
    (v : String) :
    FromSources src (l.modify (fun e => { e with Value := e.Value ++ ":" ++ v }) k) := by
  intro e he
  obtain ⟨m, hm⟩ := List.getElem?_of_mem he
  rw [List.getElem?_modify] at hm
  cases hl : l[m]? with
  | none => rw [hl] at hm; cases hm
  | some a =>
    rw [hl] at hm
    simp only [Option.map_eq_map, Option.map_some', Option.some.injEq] at hm
    have ha := h a (List.getElem?_mem hl)
    by_cases hkm : k = m
    · rw [if_pos hkm] at hm
      subst hm
      exact ha
    · rw [if_neg hkm] at hm
      subst hm
      exact ha

theorem setDotNetEnvVar_fromSources {src : List EnvVar} (c : Container) (n v : String)
    (b : Bool) (h : FromSources src c.Env) : FromSources src (setDotNetEnvVar c n v b).Env := by
  rcases getIndexOfEnv_cases c.Env n with ⟨_, h2⟩ | ⟨k, _, hk⟩
  · rw [setDotNetEnvVar_absent c n v b h2]
    exact h.append_entry _ (Or.inl rfl)
  · cases b with
    | false =>
      rw [setDotNetEnvVar_keep_present c n v hk.hasEntry]
      exact h
    | true =>
      rw [setDotNetEnvVar_concat_firstAt c n v k hk]
      exact h.modify_value k v

theorem injectSpecEnv_fromSources {src : List EnvVar} (c : Container) (envs : List EnvVar)
    (hsub : ∀ d ∈ envs, d ∈ src) (h : FromSources src c.Env) :
    FromSources src (injectSpecEnv c envs).Env := by
  induction envs generalizing c with
  | nil => exact h
  | cons env rest ih =>
    have hstep : injectSpecEnv c (env :: rest) = injectSpecEnv (injectSpecEnvVar c env) rest :=
      rfl
    rw [hstep]
    apply ih _ (fun d hd => hsub d (List.mem_cons_of_mem _ hd))
    rcases getIndexOfEnv_cases c.Env env.Name with ⟨_, h2⟩ | ⟨k, _, hk⟩
    · rw [injectSpecEnvVar_absent c env h2]
      exact h.append_entry env (Or.inr ⟨env, hsub env (List.mem_cons_self _ _), rfl, rfl⟩)
    · rw [injectSpecEnvVar_present c env hk.hasEntry]
      exact h

theorem applyDotNetEnvVars_fromSources {src : List EnvVar} (c : Container)
    (h : FromSources src c.Env) : FromSources src (applyDotNetEnvVars c).Env := by
  unfold applyDotNetEnvVars
  simp only []
  apply setDotNetEnvVar_fromSources
  apply setDotNetEnvVar_fromSources
  apply setDotNetEnvVar_fromSources
  apply setDotNetEnvVar_fromSources
  apply setDotNetEnvVar_fromSources
  apply setDotNetEnvVar_fromSources
  apply setDotNetEnvVar_fromSources
  exact h

theorem injectContainer_fromSources (vn : String) (spec : DotNet) (c : Container) :
    FromSources (c.Env ++ spec.Env) (injectContainer vn spec c).Env := by
  rw [injectContainer_env]
  apply applyDotNetEnvVars_fromSources
  apply injectSpecEnv_fromSources
  · exact fun d hd => List.mem_append_right _ hd
  · exact FromSources.base _ _

theorem injectContainer_validate (vn : String) (spec : DotNet) (c : Container)
    (hv : validateContainerEnv c.Env concatEnvNames = none)
    (hs : ∀ d ∈ spec.Env, d.Name ∈ concatEnvNames → d.ValueFrom = none) :
    validateContainerEnv (injectContainer vn spec c).Env concatEnvNames = none := by
  rw [validateContainerEnv_eq_none_iff] at hv ⊢
  intro n hn k e' hf he'
  have hname : e'.Name = n := by
    obtain ⟨⟨x, hx, hxn⟩, _⟩ := hf
    rw [he'] at hx
    cases hx
    exact hxn
  rcases getIndexOfEnv_cases c.Env n with ⟨_, h2⟩ | ⟨k0, _, hk0⟩
  · rcases injectContainer_fromSources vn spec c e' (List.getElem?_mem he') with
      h | ⟨d, hd, hdn, hdv⟩
    · exact h
    · rcases List.mem_append.mp hd with hd | hd
      · exact absurd (hdn.trans hname) (h2 d hd)
      · rw [← hdv]
        exact hs d hd (by rw [hdn, hname]; exact hn)
  · have hk' := (injectContainer_preserved vn spec c).firstAt hk0
    have hkk : k = k0 := hf.unique hk'
    subst hkk
    have hfirst := hk0
    obtain ⟨⟨e0, he0, _⟩, _⟩ := hfirst
    obtain ⟨e'', he'', _, hvf, _⟩ := injectContainer_preserved vn spec c k e0 he0
    rw [he'] at he''
    cases he''
    rw [hvf]
    exact hv n hn k e0 hk0 he0

/-! ## Lemmas on `envValue` -/

theorem envValue_of_firstAt {l : List EnvVar} {n : String} {k : Nat} {e : EnvVar}
    (hf : FirstAt l n k) (he : l[k]? = some e) : envValue l n = some e.Value := by
  induction l generalizing k with
  | nil => simp at he
  | cons x rest ih =>
    obtain ⟨⟨e1, he1, hn1⟩, hfirst⟩ := hf
    rw [he] at he1
    cases he1
    cases k with
    | zero =>
      simp only [List.getElem?_cons_zero, Option.some.injEq] at he
      subst he
      simp [envValue, hn1]
    | succ k =>
      have hx : x.Name ≠ n := hfirst 0 x (by omega) (by simp)
      have he' : rest[k]? = some e := by simpa using he
      have hrest : FirstAt rest n k := by
        refine ⟨⟨e, he', hn1⟩, ?_⟩
        intro j y hj hy
        exact hfirst (j + 1) y (by omega) (by simpa using hy)
      have := ih hrest he'
      simpa [envValue, hx] using this

/-! ## The pod after a successful call -/

theorem injectDotNetSDK_success_missing (vn icn : String) (spec : DotNet) (pod : Pod)
    (index : Int) (p : Pod) (c : Container)
    (h : injectDotNetSDK vn icn spec pod index = some (p, none))
    (hc : pod.Spec.Containers[index.toNat]? = some c)
    (hmiss : isInitContainerMissing icn pod = true) :
    p = { Spec :=
          { Volumes := pod.Spec.Volumes ++ [sharedVolume vn]
            InitContainers := pod.Spec.InitContainers ++ [sharedInitContainer vn icn spec]
            Containers := pod.Spec.Containers.set index.toNat (injectContainer vn spec c) } } := by
  obtain ⟨_, c', hc', _, _, _, hp⟩ := injectDotNetSDK_success vn icn spec pod index p h
  rw [hc] at hc'
  cases hc'
  rw [hp]
  unfold injectInitContainer
  rw [if_pos (by simpa [isInitContainerMissing] using hmiss)]
  rfl

theorem injectDotNetSDK_success_present (vn icn : String) (spec : DotNet) (pod : Pod)
    (index : Int) (p : Pod) (c : Container)
    (h : injectDotNetSDK vn icn spec pod index = some (p, none))
    (hc : pod.Spec.Containers[index.toNat]? = some c)
    (hmiss : isInitContainerMissing icn pod = false) :
    p = { Spec :=
          { Volumes := pod.Spec.Volumes
            InitContainers := pod.Spec.InitContainers
            Containers := pod.Spec.Containers.set index.toNat (injectContainer vn spec c) } } := by
  obtain ⟨_, c', hc', _, _, _, hp⟩ := injectDotNetSDK_success vn icn spec pod index p h
  rw [hc] at hc'
  cases hc'
  rw [hp]
  unfold injectInitContainer
  rw [if_neg (by simpa [isInitContainerMissing] using hmiss)]

theorem isInitContainerMissing_append_shared (vn icn : String) (spec : DotNet)
    (vols : List Volume) (inits containers : List Container) :
    isInitContainerMissing icn
      { Spec := { Volumes := vols
                  InitContainers := inits ++ [sharedInitContainer vn icn spec]
                  Containers := containers } } = false := by
  simp [isInitContainerMissing, sharedInitContainer]

/-! ## The claims -/

/-- C1: whenever `injectDotNetSDK` returns an error, the pod it returns is the input pod,
so no env entry, volume mount, volume or init container has been added or changed. -/
theorem injectDotNetSDK_error_returns_input (vn icn : String) (spec : DotNet) (pod : Pod)
    (index : Int) (p : Pod) (err : String)
    (h : injectDotNetSDK vn icn spec pod index = some (p, some err)) : p = pod := by
  obtain ⟨h0, c, hc⟩ := injectDotNetSDK_isSome vn icn spec pod index _ h
  rw [injectDotNetSDK_inRange vn icn spec pod index c h0 hc] at h
  split at h
  · simp only [Option.some.injEq, Prod.mk.injEq] at h
    exact h.1.symm
  · split at h
    · simp only [Option.some.injEq, Prod.mk.injEq] at h
      exact h.1.symm
    · split at h
      · simp only [Option.some.injEq, Prod.mk.injEq] at h
        exact h.1.symm
      · simp at h

/-- Witness for C1 on a pod whose container already carries the home marker. -/
theorem injectDotNetSDK_error_returns_input_witness :
    injectDotNetSDK "vol" "init" fooSpec markedPod 0 = some (markedPod, some errHomeInContainer) ∧
      markedPod = markedPod :=
  ⟨by decide,
   injectDotNetSDK_error_returns_input "vol" "init" fooSpec markedPod 0 markedPod
     errHomeInContainer (by decide)⟩

/-- C2: for an in-range index, if an entry named `OTEL_DOTNET_AUTO_HOME` is in the target
container's env list or in the descriptor's env list, `injectDotNetSDK` returns an error. -/
theorem injectDotNetSDK_home_marker_fails (vn icn : String) (spec : DotNet) (pod : Pod)
    (index : Int) (c : Container) (h0 : 0 ≤ index)
    (hc : pod.Spec.Containers[index.toNat]? = some c)
    (hm : (∃ e ∈ c.Env, e.Name = envDotNetOTelAutoHome) ∨
      (∃ e ∈ spec.Env, e.Name = envDotNetOTelAutoHome)) :
    ∃ p err, injectDotNetSDK vn icn spec pod index = some (p, some err) := by
  rw [injectDotNetSDK_inRange vn icn spec pod index c h0 hc]
  split
  · exact ⟨_, _, rfl⟩
  · split
    · exact ⟨_, _, rfl⟩
    · split
      · exact ⟨_, _, rfl⟩
      · rename_i h1 h2
        rcases hm with hm | hm
        · exact absurd ((getIndexOfEnv_gt_iff _ _).mpr hm) h1
        · exact absurd ((getIndexOfEnv_gt_iff _ _).mpr hm) h2

/-- Witness for C2: the home marker is in the descriptor's env list. -/
theorem injectDotNetSDK_home_marker_fails_witness :
    ∃ p err, injectDotNetSDK "vol" "init"
      { Image := "agent:1.0", Env := [{ Name := "OTEL_DOTNET_AUTO_HOME", Value := "/y" }] }
      cleanPod 0 = some (p, some err) :=
  injectDotNetSDK_home_marker_fails "vol" "init"
    { Image := "agent:1.0", Env := [{ Name := "OTEL_DOTNET_AUTO_HOME", Value := "/y" }] }
    cleanPod 0 { Name := "app" } (by decide) (by decide)
    (Or.inr ⟨{ Name := "OTEL_DOTNET_AUTO_HOME", Value := "/y" }, by decide, by decide⟩)

/-- C3 fails as stated: the container defines `DOTNET_STARTUP_HOOKS` through a `ValueFrom`
source, the home marker is in neither env list, and `injectDotNetSDK` still returns an
error, the one of `validateContainerEnv`. -/
theorem injectDotNetSDK_fails_without_home_marker :
    (∃ c, valueFromPod.Spec.Containers[(0 : Int).toNat]? = some c ∧
      (¬ ∃ e ∈ c.Env, e.Name = envDotNetOTelAutoHome)) ∧
    (¬ ∃ e ∈ fooSpec.Env, e.Name = envDotNetOTelAutoHome) ∧
    injectDotNetSDK "vol" "init" fooSpec valueFromPod 0 =
      some (valueFromPod, some (errReservedVariableConflict "DOTNET_STARTUP_HOOKS")) :=
  ⟨⟨_, rfl, by decide⟩, by decide, by decide⟩

/-- C3 as amended: for an in-range index, `injectDotNetSDK` succeeds exactly when
`validateContainerEnv` accepts the target container's env list for the three colon-joined
names and `OTEL_DOTNET_AUTO_HOME` is in neither the container's nor the descriptor's env
list; the validation and the two home-marker checks are its only failure modes. -/
theorem injectDotNetSDK_succeeds_iff (vn icn : String) (spec : DotNet) (pod : Pod)
    (index : Int) (c : Container) (h0 : 0 ≤ index)
    (hc : pod.Spec.Containers[index.toNat]? = some c) :
    (∃ p, injectDotNetSDK vn icn spec pod index = some (p, none)) ↔
      (validateContainerEnv c.Env concatEnvNames = none ∧
        (¬ ∃ e ∈ c.Env, e.Name = envDotNetOTelAutoHome) ∧
        (¬ ∃ e ∈ spec.Env, e.Name = envDotNetOTelAutoHome)) := by
  constructor
  · rintro ⟨p, hp⟩
    obtain ⟨_, c', hc', hv, h1, h2, _⟩ := injectDotNetSDK_success vn icn spec pod index p hp
    rw [hc] at hc'
    cases hc'
    exact ⟨hv, h1, h2⟩
  · rintro ⟨hv, h1, h2⟩
    rw [injectDotNetSDK_inRange vn icn spec pod index c h0 hc, hv]
    have g1 : ¬ getIndexOfEnv c.Env envDotNetOTelAutoHome > -1 :=
      fun h => h1 ((getIndexOfEnv_gt_iff _ _).mp h)
    have g2 : ¬ getIndexOfEnv spec.Env envDotNetOTelAutoHome > -1 :=
      fun h => h2 ((getIndexOfEnv_gt_iff _ _).mp h)
    simp only [g1, g2, if_false]
    exact ⟨_, rfl⟩

/-- Witness for the amended C3 on the clean pod and the `FOO=bar` descriptor. -/
theorem injectDotNetSDK_succeeds_iff_witness :
    ∃ p, injectDotNetSDK "vol" "init" fooSpec cleanPod 0 = some (p, none) :=
  (injectDotNetSDK_succeeds_iff "vol" "init" fooSpec cleanPod 0 { Name := "app" }
    (by decide) (by decide)).mpr ⟨by decide, by decide, by decide⟩

/-- C4 fails as stated: the descriptor defines `DOTNET_STARTUP_HOOKS` through a `ValueFrom`
source; the first call succeeds and the second call fails with the error of
`validateContainerEnv`, not with the already-instrumented error. -/
theorem injectDotNetSDK_second_call_other_error :
    ∃ p, injectDotNetSDK "vol" "init" valueFromSpec cleanPod 0 = some (p, none) ∧
      injectDotNetSDK "vol" "init" valueFromSpec p 0 =
        some (p, some (errReservedVariableConflict "DOTNET_STARTUP_HOOKS")) ∧
      errReservedVariableConflict "DOTNET_STARTUP_HOOKS" ≠ errHomeInContainer := by
  refine ⟨_, rfl, ?_, by decide⟩
  decide

/-- C4 as amended: after a successful call, a second call on the returned pod with the same
descriptor and index fails and returns that pod unchanged. Its error is the one of
`validateContainerEnv` when that rejects the instrumented container's env list, and the
already-instrumented error otherwise; it is the already-instrumented error whenever the
descriptor gives none of the three colon-joined variables a `ValueFrom` source. -/
theorem injectDotNetSDK_second_call_fails (vn icn : String) (spec : DotNet) (pod : Pod)
    (index : Int) (p : Pod) (h : injectDotNetSDK vn icn spec pod index = some (p, none)) :
    ∃ c', p.Spec.Containers[index.toNat]? = some c' ∧
      injectDotNetSDK vn icn spec p index =
        some (p, some (match validateContainerEnv c'.Env concatEnvNames with
          | some err => err
          | none => errHomeInContainer)) ∧
      ((∀ d ∈ spec.Env, d.Name ∈ concatEnvNames → d.ValueFrom = none) →
        injectDotNetSDK vn icn spec p index = some (p, some errHomeInContainer)) := by
  obtain ⟨h0, c, hc, hv, _, _, _⟩ := injectDotNetSDK_success vn icn spec pod index p h
  have hc' := injectDotNetSDK_success_container vn icn spec pod index p c h hc
  have hhome : getIndexOfEnv (injectContainer vn spec c).Env envDotNetOTelAutoHome > -1 :=
    (getIndexOfEnv_gt_iff _ _).mpr (injectContainer_mem_home vn spec c)
  refine ⟨_, hc', ?_, ?_⟩
  · rw [injectDotNetSDK_inRange vn icn spec p index _ h0 hc']
    cases hval : validateContainerEnv (injectContainer vn spec c).Env concatEnvNames with
    | some err => rfl
    | none => simp only [hhome, if_true]
  · intro hs
    rw [injectDotNetSDK_inRange vn icn spec p index _ h0 hc',
      injectContainer_validate vn spec c hv hs]
    simp only [hhome, if_true]

/-- Witness for the amended C4 on the clean pod and the `FOO=bar` descriptor. -/
theorem injectDotNetSDK_second_call_fails_witness :
    ∃ p, injectDotNetSDK "vol" "init" fooSpec cleanPod 0 = some (p, none) ∧
      ∃ c', p.Spec.Containers[(0 : Int).toNat]? = some c' ∧
        injectDotNetSDK "vol" "init" fooSpec p 0 =
          some (p, some (match validateContainerEnv c'.Env concatEnvNames with
            | some err => err
            | none => errHomeInContainer)) ∧
        ((∀ d ∈ fooSpec.Env, d.Name ∈ concatEnvNames → d.ValueFrom = none) →
          injectDotNetSDK "vol" "init" fooSpec p 0 = some (p, some errHomeInContainer)) :=
  ⟨_, rfl, injectDotNetSDK_second_call_fails "vol" "init" fooSpec cleanPod 0 _ rfl⟩

/-- C5 fails as stated: `DOTNET_STARTUP_HOOKS` is defined by the container (value `/a`) and
by the descriptor; the call succeeds and the resulting value is `/a` joined with the engine's
start-up hook path, not the container's original value. -/
theorem injectDotNetSDK_colon_joined_changes_user_value :
    ∃ (p : Pod) (c c' : Container),
      injectDotNetSDK "vol" "init" hookSpec hookPod 0 = some (p, none) ∧
      hookPod.Spec.Containers[(0 : Int).toNat]? = some c ∧
      p.Spec.Containers[(0 : Int).toNat]? = some c' ∧
      (∃ e ∈ c.Env, e.Name = "DOTNET_STARTUP_HOOKS") ∧
      (∃ d ∈ hookSpec.Env, d.Name = "DOTNET_STARTUP_HOOKS") ∧
      envValue c.Env "DOTNET_STARTUP_HOOKS" = some "/a" ∧
      envValue c'.Env "DOTNET_STARTUP_HOOKS" = some
        "/a:/otel-auto-instrumentation/net/OpenTelemetry.AutoInstrumentation.StartupHook.dll" :=
  ⟨_, _, _, rfl, rfl, rfl, by decide, by decide, by decide, by decide⟩

/-- C6: when the first entry named `n` of the container's env list is at position `i` with
value `a`, `setDotNetEnvVar` with `concatValues = true` keeps the length of the env list and
every entry other than the one at position `i`, whose value becomes `a`, then `:`, then
`b`. -/
theorem setDotNetEnvVar_concat_joins (container : Container) (n b a : String) (i : Nat)
    (e : EnvVar) (hi : container.Env[i]? = some e) (hname : e.Name = n) (hval : e.Value = a)
    (hfirst : ∀ (j : Nat) (x : EnvVar), j < i → container.Env[j]? = some x → x.Name ≠ n) :
    (setDotNetEnvVar container n b true).Env.length = container.Env.length ∧
      (∀ j : Nat, j ≠ i →
        (setDotNetEnvVar container n b true).Env[j]? = container.Env[j]?) ∧
      (setDotNetEnvVar container n b true).Env[i]? =
        some { e with Value := a ++ ":" ++ b } := by
  have hf : FirstAt container.Env n i := ⟨⟨e, hi, hname⟩, hfirst⟩
  rw [setDotNetEnvVar_concat_firstAt container n b i hf]
  refine ⟨by simp, ?_, ?_⟩
  · intro j hj
    exact List.getElem?_modify_ne _ _ (fun h => hj h.symm)
  · show (container.Env.modify (fun e => { e with Value := e.Value ++ ":" ++ b }) i)[i]? = _
    rw [List.getElem?_modify_eq, hi, ← hval]
    rfl

/-- Witness for C6: in the env list `X=1, P=/a, P=/c` the first `P` is at position 1, and
joining `/b` onto it gives `X=1, P=/a:/b, P=/c`. -/
theorem setDotNetEnvVar_concat_joins_witness :
    (setDotNetEnvVar pathContainer "P" "/b" true).Env =
        [{ Name := "X", Value := "1" }, { Name := "P", Value := "/a:/b" },
         { Name := "P", Value := "/c" }] ∧
      ((setDotNetEnvVar pathContainer "P" "/b" true).Env.length = pathContainer.Env.length ∧
        (∀ j : Nat, j ≠ 1 →
          (setDotNetEnvVar pathContainer "P" "/b" true).Env[j]? = pathContainer.Env[j]?) ∧
        (setDotNetEnvVar pathContainer "P" "/b" true).Env[1]? =
          some { ({ Name := "P", Value := "/a" } : EnvVar) with Value := "/a" ++ ":" ++ "/b" }) :=
  ⟨by decide,
    setDotNetEnvVar_concat_joins pathContainer "P" "/b" "/a" 1 { Name := "P", Value := "/a" }
      (by decide) (by decide) (by decide)
      (fun j x hj hx => by
        have hj0 : j = 0 := by omega
        subst hj0
        have hx0 : x = { Name := "X", Value := "1" } := by
          simpa [pathContainer] using hx.symm
        subst hx0
        decide)⟩

/-- C7: `setDotNetEnvVar` with `concatValues = false` appends the single entry `(n, v)` at
the end of the env list when no entry is named `n`, and leaves the container, its env list
included, unchanged when an entry named `n` exists. -/
theorem setDotNetEnvVar_first_writer (container : Container) (n v : String) :
    ((∀ e ∈ container.Env, e.Name ≠ n) →
        setDotNetEnvVar container n v false =
          { container with Env := container.Env ++ [{ Name := n, Value := v }] }) ∧
      ((∃ e ∈ container.Env, e.Name = n) → setDotNetEnvVar container n v false = container) :=
  ⟨setDotNetEnvVar_absent container n v false, setDotNetEnvVar_keep_present container n v⟩

/-- Witness for C7: `Q` is absent from `X=1, P=/a, P=/c` and is appended; `X` is present and
nothing changes. -/
theorem setDotNetEnvVar_first_writer_witness :
    setDotNetEnvVar pathContainer "Q" "new" false =
        { pathContainer with Env := pathContainer.Env ++ [{ Name := "Q", Value := "new" }] } ∧
      setDotNetEnvVar pathContainer "X" "new" false = pathContainer :=
  ⟨(setDotNetEnvVar_first_writer pathContainer "Q" "new").1 (by decide),
   (setDotNetEnvVar_first_writer pathContainer "X" "new").2 (by decide)⟩

/-- C8: on a pod without an init container of the reserved name, two successful calls at
distinct indices `i` and `j`, in either order, yield a pod whose volume list is the original
one followed by the one shared volume and whose init-container list is the original one
followed by the one shared init container; the two orders yield the same pod. -/
theorem injectDotNetSDK_shared_infra_once (vn icn : String) (spec : DotNet) (pod : Pod)
    (i j : Int) (p1 p2 q1 q2 : Pod)
    (hmiss : isInitContainerMissing icn pod = true) (hij : i ≠ j)
    (h1 : injectDotNetSDK vn icn spec pod i = some (p1, none))
    (h2 : injectDotNetSDK vn icn spec p1 j = some (p2, none))
    (g1 : injectDotNetSDK vn icn spec pod j = some (q1, none))
    (g2 : injectDotNetSDK vn icn spec q1 i = some (q2, none)) :
    p2.Spec.Volumes = pod.Spec.Volumes ++ [sharedVolume vn] ∧
      p2.Spec.InitContainers = pod.Spec.InitContainers ++ [sharedInitContainer vn icn spec] ∧
      p2.Spec.Volumes.length = pod.Spec.Volumes.length + 1 ∧
      p2.Spec.InitContainers.length = pod.Spec.InitContainers.length + 1 ∧
      q2 = p2 := by
  obtain ⟨hi0, ci, hci, _⟩ := injectDotNetSDK_success vn icn spec pod i p1 h1
  obtain ⟨hj0, cj, hcj, _⟩ := injectDotNetSDK_success vn icn spec pod j q1 g1
  have hne : i.toNat ≠ j.toNat := by omega
  have hp1 := injectDotNetSDK_success_missing vn icn spec pod i p1 ci h1 hci hmiss
  have hq1 := injectDotNetSDK_success_missing vn icn spec pod j q1 cj g1 hcj hmiss
  have hcj1 : p1.Spec.Containers[j.toNat]? = some cj := by
    rw [hp1]
    show (pod.Spec.Containers.set i.toNat (injectContainer vn spec ci))[j.toNat]? = some cj
    rw [List.getElem?_set_ne hne]
    exact hcj
  have hci1 : q1.Spec.Containers[i.toNat]? = some ci := by
    rw [hq1]
    show (pod.Spec.Containers.set j.toNat (injectContainer vn spec cj))[i.toNat]? = some ci
    rw [List.getElem?_set_ne (fun h => hne h.symm)]
    exact hci
  have hm1 : isInitContainerMissing icn p1 = false := by
    rw [hp1]
    exact isInitContainerMissing_append_shared vn icn spec _ _ _
  have hm2 : isInitContainerMissing icn q1 = false := by
    rw [hq1]
    exact isInitContainerMissing_append_shared vn icn spec _ _ _
  have hp2 := injectDotNetSDK_success_present vn icn spec p1 j p2 cj h2 hcj1 hm1
  have hq2 := injectDotNetSDK_success_present vn icn spec q1 i q2 ci g2 hci1 hm2
  have hvol : p2.Spec.Volumes = pod.Spec.Volumes ++ [sharedVolume vn] := by
    rw [hp2, hp1]
  have hinit : p2.Spec.InitContainers =
      pod.Spec.InitContainers ++ [sharedInitContainer vn icn spec] := by
    rw [hp2, hp1]
  refine ⟨hvol, hinit, by rw [hvol]; simp, by rw [hinit]; simp, ?_⟩
  rw [hq2, hp2, hq1, hp1]
  show ({ Spec := { Volumes := _, InitContainers := _,
                    Containers := (pod.Spec.Containers.set j.toNat _).set i.toNat _ } } : Pod) =
    { Spec := { Volumes := _, InitContainers := _,
                Containers := (pod.Spec.Containers.set i.toNat _).set j.toNat _ } }
  rw [List.set_comm _ _ _ hne]

/-- Witness for C8 on a pod with the two containers `app` and `sidecar`. -/
theorem injectDotNetSDK_shared_infra_once_witness :
    ∃ p1 p2 q1 q2 : Pod,
      injectDotNetSDK "vol" "init" fooSpec twoPod 0 = some (p1, none) ∧
      injectDotNetSDK "vol" "init" fooSpec p1 1 = some (p2, none) ∧
      injectDotNetSDK "vol" "init" fooSpec twoPod 1 = some (q1, none) ∧
      injectDotNetSDK "vol" "init" fooSpec q1 0 = some (q2, none) ∧
      (p2.Spec.Volumes = twoPod.Spec.Volumes ++ [sharedVolume "vol"] ∧
        p2.Spec.InitContainers =
          twoPod.Spec.InitContainers ++ [sharedInitContainer "vol" "init" fooSpec] ∧
        p2.Spec.Volumes.length = twoPod.Spec.Volumes.length + 1 ∧
        p2.Spec.InitContainers.length = twoPod.Spec.InitContainers.length + 1 ∧
        q2 = p2) :=
  ⟨_, _, _, _, rfl, rfl, rfl, rfl,
    injectDotNetSDK_shared_infra_once "vol" "init" fooSpec twoPod 0 1 _ _ _ _
      (by decide) (by decide) rfl rfl rfl rfl⟩

/-- C9: after a successful call the target container's original env list is a prefix of the
resulting one as to names and positions: every original position still holds an entry of the
same name (and the same `ValueFrom`), and that entry is identical to the original one unless
its name is `DOTNET_STARTUP_HOOKS`, `DOTNET_ADDITIONAL_DEPS` or `DOTNET_SHARED_STORE`. -/
theorem injectDotNetSDK_env_preserved (vn icn : String) (spec : DotNet) (pod : Pod)
    (index : Int) (p : Pod) (c : Container)
    (h : injectDotNetSDK vn icn spec pod index = some (p, none))
    (hc : pod.Spec.Containers[index.toNat]? = some c) :
    ∃ c', p.Spec.Containers[index.toNat]? = some c' ∧
      c.Env.length ≤ c'.Env.length ∧
      ∀ (k : Nat) (e : EnvVar), c.Env[k]? = some e →
        ∃ e', c'.Env[k]? = some e' ∧ e'.Name = e.Name ∧ e'.ValueFrom = e.ValueFrom ∧
          (e' ≠ e → e.Name = "DOTNET_STARTUP_HOOKS" ∨ e.Name = "DOTNET_ADDITIONAL_DEPS" ∨
            e.Name = "DOTNET_SHARED_STORE") := by
  have hpres := injectContainer_preserved vn spec c
  refine ⟨_, injectDotNetSDK_success_container vn icn spec pod index p c h hc,
    hpres.length_le, ?_⟩
  intro k e he
  obtain ⟨e', he', hname, hvf, hkeep⟩ := hpres k e he
  refine ⟨e', he', hname, hvf, ?_⟩
  intro hne
  by_contra hnot
  apply hne
  apply hkeep
  intro hmem
  apply hnot
  simpa [concatEnvNames, envDotNetStartupHook, envDotNetAdditionalDeps,
    envDotNetSharedStore] using hmem

/-- Witness for C9 on the pod whose container sets `DOTNET_STARTUP_HOOKS=/a` and
`FOO=mine`. -/
theorem injectDotNetSDK_env_preserved_witness :
    ∃ (p : Pod) (c : Container),
      injectDotNetSDK "vol" "init" hookSpec hookPod 0 = some (p, none) ∧
      hookPod.Spec.Containers[(0 : Int).toNat]? = some c ∧
      ∃ c', p.Spec.Containers[(0 : Int).toNat]? = some c' ∧
        c.Env.length ≤ c'.Env.length ∧
        ∀ (k : Nat) (e : EnvVar), c.Env[k]? = some e →
          ∃ e', c'.Env[k]? = some e' ∧ e'.Name = e.Name ∧ e'.ValueFrom = e.ValueFrom ∧
            (e' ≠ e → e.Name = "DOTNET_STARTUP_HOOKS" ∨ e.Name = "DOTNET_ADDITIONAL_DEPS" ∨
              e.Name = "DOTNET_SHARED_STORE") :=
  ⟨_, _, rfl, rfl, injectDotNetSDK_env_preserved "vol" "init" hookSpec hookPod 0 _ _ rfl rfl⟩

/-- C10: when the target container has an empty env list and the descriptor's env names are
pairwise distinct and include none of the seven engine-owned names, `injectDotNetSDK`
succeeds and the resulting env list is the descriptor's env list followed by the seven
engine-owned entries in the order of the source. -/
theorem injectDotNetSDK_clean_container (vn icn : String) (spec : DotNet) (pod : Pod)
    (index : Int) (c : Container) (h0 : 0 ≤ index)
    (hc : pod.Spec.Containers[index.toNat]? = some c) (hempty : c.Env = [])
    (hnodup : (spec.Env.map (fun d => d.Name)).Nodup)
    (hnone : ∀ d ∈ spec.Env, d.Name ∉ engineEnvNames) :
    ∃ p c', injectDotNetSDK vn icn spec pod index = some (p, none) ∧
      p.Spec.Containers[index.toNat]? = some c' ∧
      c'.Env = spec.Env ++
        [{ Name := "CORECLR_ENABLE_PROFILING", Value := "1" },
         { Name := "CORECLR_PROFILER", Value := "\x7b918728DD-259F-4A6A-AC2B-B85E1B658318\x7d" },
         { Name := "CORECLR_PROFILER_PATH",
           Value := "/otel-auto-instrumentation/OpenTelemetry.AutoInstrumentation.Native.so" },
         { Name := "DOTNET_STARTUP_HOOKS",
           Value :=
             "/otel-auto-instrumentation/net/OpenTelemetry.AutoInstrumentation.StartupHook.dll" },
         { Name := "DOTNET_ADDITIONAL_DEPS",
           Value := "/otel-auto-instrumentation/AdditionalDeps" },
         { Name := "OTEL_DOTNET_AUTO_HOME", Value := "/otel-auto-instrumentation" },
         { Name := "DOTNET_SHARED_STORE", Value := "/otel-auto-instrumentation/store" }] := by
  have hv : validateContainerEnv c.Env concatEnvNames = none := by
    rw [hempty]
    decide
  have g1 : ¬ getIndexOfEnv c.Env envDotNetOTelAutoHome > -1 := by
    rw [hempty]
    decide
  have g2 : ¬ getIndexOfEnv spec.Env envDotNetOTelAutoHome > -1 := by
    intro hgt
    obtain ⟨d, hd, hdn⟩ := (getIndexOfEnv_gt_iff _ _).mp hgt
    exact hnone d hd (by rw [hdn]; simp [engineEnvNames])
  have hrun : injectDotNetSDK vn icn spec pod index =
      some (injectInitContainer vn icn spec
        { pod with
          Spec := { pod.Spec with
            Containers := pod.Spec.Containers.set index.toNat
              (injectContainer vn spec c) } }, none) := by
    rw [injectDotNetSDK_inRange vn icn spec pod index c h0 hc, hv]
    simp only [g1, g2, if_false]
  refine ⟨_, _, hrun,
    injectDotNetSDK_success_container vn icn spec pod index _ c hrun hc, ?_⟩
  rw [injectContainer_env, injectSpecEnv_fresh c spec.Env hnodup (by simp [hempty])]
  rw [applyDotNetEnvVars_fresh]
  · simp only [hempty, List.nil_append]
    rfl
  · intro e he
    simp only [hempty, List.nil_append] at he
    exact hnone e he

/-- Witness for C10: container `app` without env entries, descriptor env `FOO=bar`, image
`agent:1.0`. -/
theorem injectDotNetSDK_clean_container_witness :
    ∃ p c', injectDotNetSDK "vol" "init" fooSpec cleanPod 0 = some (p, none) ∧
      p.Spec.Containers[(0 : Int).toNat]? = some c' ∧
      c'.Env = fooSpec.Env ++
        [{ Name := "CORECLR_ENABLE_PROFILING", Value := "1" },
         { Name := "CORECLR_PROFILER", Value := "\x7b918728DD-259F-4A6A-AC2B-B85E1B658318\x7d" },
         { Name := "CORECLR_PROFILER_PATH",
           Value := "/otel-auto-instrumentation/OpenTelemetry.AutoInstrumentation.Native.so" },
         { Name := "DOTNET_STARTUP_HOOKS",
           Value :=
             "/otel-auto-instrumentation/net/OpenTelemetry.AutoInstrumentation.StartupHook.dll" },
         { Name := "DOTNET_ADDITIONAL_DEPS",
           Value := "/otel-auto-instrumentation/AdditionalDeps" },
         { Name := "OTEL_DOTNET_AUTO_HOME", Value := "/otel-auto-instrumentation" },
         { Name := "DOTNET_SHARED_STORE", Value := "/otel-auto-instrumentation/store" }] :=
  injectDotNetSDK_clean_container "vol" "init" fooSpec cleanPod 0 { Name := "app" }
    (by decide) (by decide) rfl (by decide) (by decide)

/-! ## Frame lemmas -/

theorem injectContainer_frame (vn : String) (spec : DotNet) (c : Container) :
    (injectContainer vn spec c).Name = c.Name ∧ (injectContainer vn spec c).Image = c.Image ∧
      (injectContainer vn spec c).Command = c.Command ∧
      (injectContainer vn spec c).VolumeMounts =
        c.VolumeMounts ++ [{ Name := vn, MountPath := "/otel-auto-instrumentation" }] := by
  obtain ⟨a1, a2, a3, a4⟩ := applyDotNetEnvVars_frame (injectSpecEnv c spec.Env)
  obtain ⟨b1, b2, b3, b4⟩ := injectSpecEnv_frame c spec.Env
  unfold injectContainer
  simp only []
  exact ⟨a1.trans b1, a2.trans b2, a3.trans b3, by rw [a4, b4]⟩

theorem isInitContainerMissing_iff (icn : String) (pod : Pod) :
    isInitContainerMissing icn pod = true ↔
      ∀ ic ∈ pod.Spec.InitContainers, ic.Name ≠ icn := by
  simp [isInitContainerMissing]

/-- C15: after a successful call the target container's volume-mount list is its original
list followed by one mount with the reserved volume name and the mount path
`/otel-auto-instrumentation`. -/
theorem injectDotNetSDK_volume_mount (vn icn : String) (spec : DotNet) (pod : Pod)
    (index : Int) (p : Pod) (c : Container)
    (h : injectDotNetSDK vn icn spec pod index = some (p, none))
    (hc : pod.Spec.Containers[index.toNat]? = some c) :
    ∃ c', p.Spec.Containers[index.toNat]? = some c' ∧
      c'.VolumeMounts =
        c.VolumeMounts ++ [{ Name := vn, MountPath := "/otel-auto-instrumentation" }] :=
  ⟨_, injectDotNetSDK_success_container vn icn spec pod index p c h hc,
    (injectContainer_frame vn spec c).2.2.2⟩

/-- Witness for C15 on the clean pod and the `FOO=bar` descriptor. -/
theorem injectDotNetSDK_volume_mount_witness :
    ∃ (p : Pod) (c : Container),
      injectDotNetSDK "vol" "init" fooSpec cleanPod 0 = some (p, none) ∧
      cleanPod.Spec.Containers[(0 : Int).toNat]? = some c ∧
      ∃ c', p.Spec.Containers[(0 : Int).toNat]? = some c' ∧
        c'.VolumeMounts =
          c.VolumeMounts ++ [{ Name := "vol", MountPath := "/otel-auto-instrumentation" }] :=
  ⟨_, _, rfl, rfl, injectDotNetSDK_volume_mount "vol" "init" fooSpec cleanPod 0 _ _ rfl rfl⟩

/-- C16: after a successful call, if the input pod has an init container with the reserved
name, its volume list and init-container list are unchanged; otherwise the volume list is
the original one followed by one empty-directory volume with the reserved volume name, and
the init-container list is the original one followed by one container with the reserved
name, the descriptor's image, the command `cp -a /autoinstrumentation/.
/otel-auto-instrumentation/` and the single volume mount. -/
theorem injectDotNetSDK_pod_step (vn icn : String) (spec : DotNet) (pod : Pod) (index : Int)
    (p : Pod) (h : injectDotNetSDK vn icn spec pod index = some (p, none)) :
    ((∃ ic ∈ pod.Spec.InitContainers, ic.Name = icn) →
        p.Spec.Volumes = pod.Spec.Volumes ∧
          p.Spec.InitContainers = pod.Spec.InitContainers) ∧
      ((∀ ic ∈ pod.Spec.InitContainers, ic.Name ≠ icn) →
        p.Spec.Volumes = pod.Spec.Volumes ++
            [{ Name := vn, VolumeSource := { EmptyDir := some {} } }] ∧
          p.Spec.InitContainers = pod.Spec.InitContainers ++
            [{ Name := icn
               Image := spec.Image
               Command := ["cp", "-a", "/autoinstrumentation/.", "/otel-auto-instrumentation/"]
               VolumeMounts :=
                 [{ Name := vn, MountPath := "/otel-auto-instrumentation" }] }]) := by
  obtain ⟨_, c, hc, _⟩ := injectDotNetSDK_success vn icn spec pod index p h
  constructor
  · rintro ⟨ic, hic, hname⟩
    have hmiss : isInitContainerMissing icn pod = false := by
      cases hm : isInitContainerMissing icn pod with
      | false => rfl
      | true => exact absurd hname ((isInitContainerMissing_iff icn pod).mp hm ic hic)
    rw [injectDotNetSDK_success_present vn icn spec pod index p c h hc hmiss]
    exact ⟨rfl, rfl⟩
  · intro hall
    have hmiss := (isInitContainerMissing_iff icn pod).mpr hall
    rw [injectDotNetSDK_success_missing vn icn spec pod index p c h hc hmiss]
    exact ⟨rfl, rfl⟩

/-- Witness for C16: the pod `initPod` already has the init container, the clean pod has
none. -/
theorem injectDotNetSDK_pod_step_witness :
    (∃ p : Pod, injectDotNetSDK "vol" "init" fooSpec initPod 0 = some (p, none) ∧
        p.Spec.Volumes = initPod.Spec.Volumes ∧
        p.Spec.InitContainers = initPod.Spec.InitContainers) ∧
      (∃ p : Pod, injectDotNetSDK "vol" "init" fooSpec cleanPod 0 = some (p, none) ∧
        p.Spec.Volumes = cleanPod.Spec.Volumes ++
            [{ Name := "vol", VolumeSource := { EmptyDir := some {} } }] ∧
        p.Spec.InitContainers = cleanPod.Spec.InitContainers ++
            [{ Name := "init"
               Image := fooSpec.Image
               Command := ["cp", "-a", "/autoinstrumentation/.", "/otel-auto-instrumentation/"]
               VolumeMounts :=
                 [{ Name := "vol", MountPath := "/otel-auto-instrumentation" }] }]) :=
  ⟨⟨_, rfl, (injectDotNetSDK_pod_step "vol" "init" fooSpec initPod 0 _ rfl).1
      ⟨{ Name := "init", Image := "other:2.0" }, by decide, by decide⟩⟩,
   ⟨_, rfl, (injectDotNetSDK_pod_step "vol" "init" fooSpec cleanPod 0 _ rfl).2
      (by decide)⟩⟩

/-- C17: after a successful call at `index` the number of containers is unchanged, every
container at another index is the input container, and the target container differs from
its input only in its env list and its volume-mount list. -/
theorem injectDotNetSDK_frame (vn icn : String) (spec : DotNet) (pod : Pod) (index : Int)
    (p : Pod) (c : Container) (h : injectDotNetSDK vn icn spec pod index = some (p, none))
    (hc : pod.Spec.Containers[index.toNat]? = some c) :
    p.Spec.Containers.length = pod.Spec.Containers.length ∧
      (∀ k : Nat, k ≠ index.toNat → p.Spec.Containers[k]? = pod.Spec.Containers[k]?) ∧
      ∃ c', p.Spec.Containers[index.toNat]? = some c' ∧
        c' = { c with Env := c'.Env, VolumeMounts := c'.VolumeMounts } := by
  obtain ⟨_, c0, hc0, _, _, _, hp⟩ := injectDotNetSDK_success vn icn spec pod index p h
  rw [hc] at hc0
  cases hc0
  have hcont : p.Spec.Containers =
      pod.Spec.Containers.set index.toNat (injectContainer vn spec c) := by
    rw [hp, injectInitContainer_containers]
  refine ⟨by rw [hcont]; simp, ?_, _,
    injectDotNetSDK_success_container vn icn spec pod index p c h hc, ?_⟩
  · intro k hk
    rw [hcont]
    exact List.getElem?_set_ne (fun heq => hk heq.symm)
  · obtain ⟨f1, f2, f3, _⟩ := injectContainer_frame vn spec c
    cases hres : injectContainer vn spec c with
    | mk n i cmd env vm =>
      rw [hres] at f1 f2 f3
      simp only at f1 f2 f3
      subst f1 f2 f3
      rfl

/-- Witness for C17 on the pod with the two containers `app` and `sidecar`. -/
theorem injectDotNetSDK_frame_witness :
    ∃ (p : Pod) (c : Container),
      injectDotNetSDK "vol" "init" fooSpec twoPod 1 = some (p, none) ∧
      twoPod.Spec.Containers[(1 : Int).toNat]? = some c ∧
      (p.Spec.Containers.length = twoPod.Spec.Containers.length ∧
        (∀ k : Nat, k ≠ (1 : Int).toNat →
          p.Spec.Containers[k]? = twoPod.Spec.Containers[k]?) ∧
        ∃ c', p.Spec.Containers[(1 : Int).toNat]? = some c' ∧
          c' = { c with Env := c'.Env, VolumeMounts := c'.VolumeMounts }) :=
  ⟨_, _, rfl, rfl, injectDotNetSDK_frame "vol" "init" fooSpec twoPod 1 _ _ rfl rfl⟩

/-! ## The entries appended by the descriptor merge -/

theorem not_mem_names_iff (l : List EnvVar) (n : String) :
    n ∉ l.map (fun e => e.Name) ↔ ∀ e ∈ l, e.Name ≠ n := by
  simp [List.mem_map]

theorem injectSpecEnv_eq_merged (c : Container) (envs : List EnvVar) :
    injectSpecEnv c envs =
      { c with Env := c.Env ++ mergedEntries (c.Env.map (fun e => e.Name)) envs } := by
  induction envs generalizing c with
  | nil => simp [injectSpecEnv, mergedEntries]
  | cons d rest ih =>
    have hstep : injectSpecEnv c (d :: rest) = injectSpecEnv (injectSpecEnvVar c d) rest :=
      rfl
    rw [hstep]
    by_cases hmem : d.Name ∈ c.Env.map (fun e => e.Name)
    · have hpres : ∃ e ∈ c.Env, e.Name = d.Name := by
        obtain ⟨e, he, hen⟩ := List.mem_map.mp hmem
        exact ⟨e, he, hen⟩
      rw [injectSpecEnvVar_present c d hpres, ih]
      simp [mergedEntries, hmem]
    · have habs := (not_mem_names_iff c.Env d.Name).mp hmem
      rw [injectSpecEnvVar_absent c d habs, ih]
      simp [mergedEntries, hmem]

theorem mergedEntries_sublist (names : List String) (envs : List EnvVar) :
    (mergedEntries names envs).Sublist envs := by
  induction envs generalizing names with
  | nil => simp [mergedEntries]
  | cons d rest ih =>
    unfold mergedEntries
    split
    · exact (ih names).cons d
    · exact (ih _).cons₂ d

theorem mergedEntries_not_mem (names : List String) (envs : List EnvVar) :
    ∀ d ∈ mergedEntries names envs, d.Name ∉ names := by
  induction envs generalizing names with
  | nil => simp [mergedEntries]
  | cons x rest ih =>
    intro d hd
    unfold mergedEntries at hd
    split at hd
    · exact ih names d hd
    · rename_i hx
      rcases List.mem_cons.mp hd with rfl | hd
      · exact hx
      · intro hmem
        exact ih _ d hd (List.mem_append_left _ hmem)

theorem mergedEntries_nodup (names : List String) (envs : List EnvVar) :
    ((mergedEntries names envs).map (fun e => e.Name)).Nodup := by
  induction envs generalizing names with
  | nil => simp [mergedEntries]
  | cons x rest ih =>
    unfold mergedEntries
    split
    · exact ih names
    · rw [List.map_cons, List.nodup_cons]
      refine ⟨?_, ih _⟩
      intro hmem
      obtain ⟨d, hd, hdn⟩ := List.mem_map.mp hmem
      exact mergedEntries_not_mem _ rest d hd (by rw [hdn]; simp)

theorem mergedEntries_first (names : List String) (envs : List EnvVar) (n : String) (m : Nat)
    (d : EnvVar) (hf : FirstAt envs n m) (hd : envs[m]? = some d) (hn : n ∉ names) :
    d ∈ mergedEntries names envs := by
  induction envs generalizing names m with
  | nil => simp at hd
  | cons x rest ih =>
    obtain ⟨⟨e, he, hen⟩, hfirst⟩ := hf
    rw [hd] at he
    cases he
    cases m with
    | zero =>
      simp only [List.getElem?_cons_zero, Option.some.injEq] at hd
      subst hd
      unfold mergedEntries
      rw [if_neg (by rw [hen]; exact hn)]
      exact List.mem_cons_self _ _
    | succ k =>
      have hx : x.Name ≠ n := hfirst 0 x (by omega) (by simp)
      have hd' : rest[k]? = some d := by simpa using hd
      have hrest : FirstAt rest n k := by
        refine ⟨⟨d, hd', hen⟩, ?_⟩
        intro j y hj hy
        exact hfirst (j + 1) y (by omega) (by simpa using hy)
      unfold mergedEntries
      split
      · exact ih names k hrest hd' hn
      · refine List.mem_cons_of_mem _ (ih _ k hrest hd' ?_)
        intro hmem
        rcases List.mem_append.mp hmem with h1 | h1
        · exact hn h1
        · exact hx (List.mem_singleton.mp h1).symm

/-- C11 fails as stated: on the clean pod the descriptor entries `DOTNET_STARTUP_HOOKS=/x`
and `A=2` have names that the container does not define, the call succeeds, and neither
entry is in the resulting env list (the first is joined with the engine's path, the second
follows `A=1`). -/
theorem injectDotNetSDK_descriptor_entry_not_kept :
    ∃ (p : Pod) (c c' : Container),
      injectDotNetSDK "vol" "init" dupSpec cleanPod 0 = some (p, none) ∧
      cleanPod.Spec.Containers[(0 : Int).toNat]? = some c ∧
      p.Spec.Containers[(0 : Int).toNat]? = some c' ∧
      ({ Name := "DOTNET_STARTUP_HOOKS", Value := "/x" } : EnvVar) ∈ dupSpec.Env ∧
      ({ Name := "A", Value := "2" } : EnvVar) ∈ dupSpec.Env ∧
      (∀ e ∈ c.Env, e.Name ≠ "DOTNET_STARTUP_HOOKS" ∧ e.Name ≠ "A") ∧
      ({ Name := "DOTNET_STARTUP_HOOKS", Value := "/x" } : EnvVar) ∉ c'.Env ∧
      ({ Name := "A", Value := "2" } : EnvVar) ∉ c'.Env :=
  ⟨_, _, _, rfl, rfl, rfl, by decide, by decide, by decide, by decide, by decide⟩

/-- C11 as amended: after a successful call, let `fresh` be the descriptor entries that are
the first of their name in the descriptor and whose name the target container does not
define, in descriptor order. The entry number `m` of `fresh` is found at position
`original length + m` of the resulting env list, so after all original entries and in
descriptor order, with its name and `ValueFrom`, and identical to the descriptor's entry
unless its name is one of the three colon-joined variables. -/
theorem injectDotNetSDK_descriptor_merge (vn icn : String) (spec : DotNet) (pod : Pod)
    (index : Int) (p : Pod) (c : Container)
    (h : injectDotNetSDK vn icn spec pod index = some (p, none))
    (hc : pod.Spec.Containers[index.toNat]? = some c) :
    ∃ (c' : Container) (fresh : List EnvVar),
      p.Spec.Containers[index.toNat]? = some c' ∧
      fresh.Sublist spec.Env ∧
      (fresh.map (fun d => d.Name)).Nodup ∧
      (∀ d ∈ fresh, ∀ e ∈ c.Env, e.Name ≠ d.Name) ∧
      (∀ (m : Nat) (d : EnvVar), FirstAt spec.Env d.Name m → spec.Env[m]? = some d →
        (∀ e ∈ c.Env, e.Name ≠ d.Name) → d ∈ fresh) ∧
      (∀ (m : Nat) (d : EnvVar), fresh[m]? = some d →
        ∃ d', c'.Env[c.Env.length + m]? = some d' ∧ d'.Name = d.Name ∧
          d'.ValueFrom = d.ValueFrom ∧
          (d.Name ≠ "DOTNET_STARTUP_HOOKS" → d.Name ≠ "DOTNET_ADDITIONAL_DEPS" →
            d.Name ≠ "DOTNET_SHARED_STORE" → d' = d)) := by
  refine ⟨_, mergedEntries (c.Env.map (fun e => e.Name)) spec.Env,
    injectDotNetSDK_success_container vn icn spec pod index p c h hc,
    mergedEntries_sublist _ _, mergedEntries_nodup _ _, ?_, ?_, ?_⟩
  · intro d hd
    exact (not_mem_names_iff c.Env d.Name).mp (mergedEntries_not_mem _ _ d hd)
  · intro m d hf hd hn
    exact mergedEntries_first _ _ d.Name m d hf hd ((not_mem_names_iff c.Env d.Name).mpr hn)
  · intro m d hd
    have hpres : EnvPreserved
        (c.Env ++ mergedEntries (c.Env.map (fun e => e.Name)) spec.Env)
        (injectContainer vn spec c).Env := by
      rw [injectContainer_env, injectSpecEnv_eq_merged]
      exact applyDotNetEnvVars_preserved
        { c with Env := c.Env ++ mergedEntries (c.Env.map (fun e => e.Name)) spec.Env }
    have hget : (c.Env ++ mergedEntries (c.Env.map (fun e => e.Name)) spec.Env)[
        c.Env.length + m]? = some d := by
      rw [List.getElem?_append_right (by omega)]
      simpa using hd
    obtain ⟨d', hd', hname, hvf, hkeep⟩ := hpres _ d hget
    refine ⟨d', hd', hname, hvf, ?_⟩
    intro n1 n2 n3
    apply hkeep
    intro hmem
    simp only [concatEnvNames, envDotNetStartupHook, envDotNetAdditionalDeps,
      envDotNetSharedStore, List.mem_cons, List.mem_singleton, List.not_mem_nil,
      or_false] at hmem
    rcases hmem with hmem | hmem | hmem
    · exact n1 hmem
    · exact n2 hmem
    · exact n3 hmem

/-- Witness for the amended C11 on the clean pod and the descriptor
`DOTNET_STARTUP_HOOKS=/x, A=1, A=2`. -/
theorem injectDotNetSDK_descriptor_merge_witness :
    ∃ (p : Pod) (c : Container),
      injectDotNetSDK "vol" "init" dupSpec cleanPod 0 = some (p, none) ∧
      cleanPod.Spec.Containers[(0 : Int).toNat]? = some c ∧
      ∃ (c' : Container) (fresh : List EnvVar),
        p.Spec.Containers[(0 : Int).toNat]? = some c' ∧
        fresh.Sublist dupSpec.Env ∧
        (fresh.map (fun d => d.Name)).Nodup ∧
        (∀ d ∈ fresh, ∀ e ∈ c.Env, e.Name ≠ d.Name) ∧
        (∀ (m : Nat) (d : EnvVar), FirstAt dupSpec.Env d.Name m → dupSpec.Env[m]? = some d →
          (∀ e ∈ c.Env, e.Name ≠ d.Name) → d ∈ fresh) ∧
        (∀ (m : Nat) (d : EnvVar), fresh[m]? = some d →
          ∃ d', c'.Env[c.Env.length + m]? = some d' ∧ d'.Name = d.Name ∧
            d'.ValueFrom = d.ValueFrom ∧
            (d.Name ≠ "DOTNET_STARTUP_HOOKS" → d.Name ≠ "DOTNET_ADDITIONAL_DEPS" →
              d.Name ≠ "DOTNET_SHARED_STORE" → d' = d)) :=
  ⟨_, _, rfl, rfl,
    injectDotNetSDK_descriptor_merge "vol" "init" dupSpec cleanPod 0 _ _ rfl rfl⟩

/-! ## The entries of a given name -/

theorem filter_modify_of_not (p : EnvVar → Bool) (f : EnvVar → EnvVar)
    (hf : ∀ e, p (f e) = p e) (l : List EnvVar) (k : Nat)
    (hk : ∀ e, l[k]? = some e → p e = false) : (l.modify f k).filter p = l.filter p := by
  induction l generalizing k with
  | nil => simp
  | cons x rest ih =>
    cases k with
    | zero =>
      have hx : p x = false := hk x (by simp)
      have hfx : p (f x) = false := by rw [hf, hx]
      simp [List.filter_cons, hx, hfx]
    | succ k =>
      have hrest := ih k (fun e he => hk e (by simpa using he))
      simp [List.filter_cons, hrest]

theorem setDotNetEnvVar_filter_ne (c : Container) (n v : String) (b : Bool) (m : String)
    (hnm : n ≠ m) :
    (setDotNetEnvVar c n v b).Env.filter (fun e => decide (e.Name = m)) =
      c.Env.filter (fun e => decide (e.Name = m)) := by
  rcases getIndexOfEnv_cases c.Env n with ⟨_, h2⟩ | ⟨k, _, hk⟩
  · rw [setDotNetEnvVar_absent c n v b h2]
    simp [List.filter_append, List.filter_cons, hnm]
  · cases b with
    | false => rw [setDotNetEnvVar_keep_present c n v hk.hasEntry]
    | true =>
      rw [setDotNetEnvVar_concat_firstAt c n v k hk]
      apply filter_modify_of_not
      · intro e
        rfl
      · intro e he
        obtain ⟨⟨e', he', hn⟩, _⟩ := hk
        rw [he] at he'
        cases he'
        simp [hn, hnm]

theorem setDotNetEnvVar_filter_absent (c : Container) (n v : String) (b : Bool)
    (h : ∀ e ∈ c.Env, e.Name ≠ n) :
    (setDotNetEnvVar c n v b).Env.filter (fun e => decide (e.Name = n)) =
      [{ Name := n, Value := v }] := by
  rw [setDotNetEnvVar_absent c n v b h]
  have hnil : c.Env.filter (fun e => decide (e.Name = n)) = [] := by
    rw [List.filter_eq_nil_iff]
    intro e he
    simpa using h e he
  simp [List.filter_append, hnil, List.filter_cons]

theorem not_mem_of_filter_eq {l l' : List EnvVar} {m : String}
    (hf : l'.filter (fun e => decide (e.Name = m)) = l.filter (fun e => decide (e.Name = m)))
    (h : ∀ e ∈ l, e.Name ≠ m) : ∀ e ∈ l', e.Name ≠ m := by
  have hnil : l.filter (fun e => decide (e.Name = m)) = [] := by
    rw [List.filter_eq_nil_iff]
    intro e he
    simpa using h e he
  rw [hnil, List.filter_eq_nil_iff] at hf
  intro e he
  simpa using hf e he

theorem applyDotNetEnvVars_filter_home (c : Container)
    (h : ∀ e ∈ c.Env, e.Name ≠ envDotNetOTelAutoHome) :
    (applyDotNetEnvVars c).Env.filter (fun e => decide (e.Name = envDotNetOTelAutoHome)) =
      [{ Name := envDotNetOTelAutoHome, Value := dotNetOTelAutoHomePath }] := by
  unfold applyDotNetEnvVars
  simp only []
  rw [setDotNetEnvVar_filter_ne _ envDotNetSharedStore _ _ envDotNetOTelAutoHome (by decide)]
  apply setDotNetEnvVar_filter_absent
  apply not_mem_of_filter_eq
    (setDotNetEnvVar_filter_ne _ envDotNetAdditionalDeps _ _ envDotNetOTelAutoHome (by decide))
  apply not_mem_of_filter_eq
    (setDotNetEnvVar_filter_ne _ envDotNetStartupHook _ _ envDotNetOTelAutoHome (by decide))
  apply not_mem_of_filter_eq
    (setDotNetEnvVar_filter_ne _ envDotNetCoreClrProfilerPath _ _ envDotNetOTelAutoHome
      (by decide))
  apply not_mem_of_filter_eq
    (setDotNetEnvVar_filter_ne _ envDotNetCoreClrProfiler _ _ envDotNetOTelAutoHome
      (by decide))
  apply not_mem_of_filter_eq
    (setDotNetEnvVar_filter_ne _ envDotNetCoreClrEnableProfiling _ _ envDotNetOTelAutoHome
      (by decide))
  exact h

theorem setDotNetEnvVar_mem_names (c : Container) (n v : String) (b : Bool)
    (hb : b = true → n ∈ concatEnvNames) (names : List String)
    (h : ∀ m ∈ names, ∃ e ∈ c.Env, e.Name = m) :
    ∀ m ∈ n :: names, ∃ e ∈ (setDotNetEnvVar c n v b).Env, e.Name = m := by
  intro m hm
  rcases List.mem_cons.mp hm with rfl | hm
  · exact setDotNetEnvVar_mem c _ v b
  · exact (setDotNetEnvVar_preserved c n v b hb).keepsName (h m hm)

theorem applyDotNetEnvVars_mem_engine (c : Container) :
    ∀ n ∈ engineEnvNames, ∃ e ∈ (applyDotNetEnvVars c).Env, e.Name = n := by
  have hall : ∀ m ∈ [envDotNetSharedStore, envDotNetOTelAutoHome, envDotNetAdditionalDeps,
      envDotNetStartupHook, envDotNetCoreClrProfilerPath, envDotNetCoreClrProfiler,
      envDotNetCoreClrEnableProfiling], ∃ e ∈ (applyDotNetEnvVars c).Env, e.Name = m := by
    unfold applyDotNetEnvVars
    simp only []
    apply setDotNetEnvVar_mem_names _ _ _ _ (fun _ => by simp [concatEnvNames])
    apply setDotNetEnvVar_mem_names _ _ _ _ (by simp)
    apply setDotNetEnvVar_mem_names _ _ _ _ (fun _ => by simp [concatEnvNames])
    apply setDotNetEnvVar_mem_names _ _ _ _ (fun _ => by simp [concatEnvNames])
    apply setDotNetEnvVar_mem_names _ _ _ _ (by simp)
    apply setDotNetEnvVar_mem_names _ _ _ _ (by simp)
    apply setDotNetEnvVar_mem_names _ _ _ _ (by simp)
    intro m hm
    simp at hm
  intro n hn
  apply hall
  simp only [engineEnvNames, List.mem_cons, List.mem_singleton, List.not_mem_nil,
    or_false] at hn ⊢
  tauto

theorem injectSpecEnv_not_mem (c : Container) (envs : List EnvVar) (n : String)
    (h1 : ∀ e ∈ c.Env, e.Name ≠ n) (h2 : ∀ d ∈ envs, d.Name ≠ n) :
    ∀ e ∈ (injectSpecEnv c envs).Env, e.Name ≠ n := by
  rw [injectSpecEnv_eq_merged]
  intro e he
  rcases List.mem_append.mp he with he | he
  · exact h1 e he
  · exact h2 e ((mergedEntries_sublist _ _).subset he)

/-- C18: after a successful call the target container's env list has exactly one entry named
`OTEL_DOTNET_AUTO_HOME`, with the value `/otel-auto-instrumentation`, which is the mount path
of the volume mount appended last, and each of the seven engine-owned names occurs in it. -/
theorem injectDotNetSDK_home_marker_set (vn icn : String) (spec : DotNet) (pod : Pod)
    (index : Int) (p : Pod) (c : Container)
    (h : injectDotNetSDK vn icn spec pod index = some (p, none))
    (hc : pod.Spec.Containers[index.toNat]? = some c) :
    ∃ c', p.Spec.Containers[index.toNat]? = some c' ∧
      c'.Env.filter (fun e => decide (e.Name = "OTEL_DOTNET_AUTO_HOME")) =
        [{ Name := "OTEL_DOTNET_AUTO_HOME", Value := "/otel-auto-instrumentation" }] ∧
      c'.VolumeMounts.getLast? =
        some { Name := vn, MountPath := "/otel-auto-instrumentation" } ∧
      ∀ n ∈ engineEnvNames, ∃ e ∈ c'.Env, e.Name = n := by
  obtain ⟨_, c0, hc0, _, h1, h2, _⟩ := injectDotNetSDK_success vn icn spec pod index p h
  rw [hc] at hc0
  cases hc0
  refine ⟨_, injectDotNetSDK_success_container vn icn spec pod index p c h hc, ?_, ?_, ?_⟩
  · rw [injectContainer_env]
    apply applyDotNetEnvVars_filter_home
    apply injectSpecEnv_not_mem
    · intro e he hn
      exact h1 ⟨e, he, hn⟩
    · intro d hd hn
      exact h2 ⟨d, hd, hn⟩
  · rw [(injectContainer_frame vn spec c).2.2.2]
    simp
  · rw [injectContainer_env]
    exact applyDotNetEnvVars_mem_engine _

/-- Witness for C18 on the pod whose container sets `DOTNET_STARTUP_HOOKS=/a` and
`FOO=mine`. -/
theorem injectDotNetSDK_home_marker_set_witness :
    ∃ (p : Pod) (c : Container),
      injectDotNetSDK "vol" "init" hookSpec hookPod 0 = some (p, none) ∧
      hookPod.Spec.Containers[(0 : Int).toNat]? = some c ∧
      ∃ c', p.Spec.Containers[(0 : Int).toNat]? = some c' ∧
        c'.Env.filter (fun e => decide (e.Name = "OTEL_DOTNET_AUTO_HOME")) =
          [{ Name := "OTEL_DOTNET_AUTO_HOME", Value := "/otel-auto-instrumentation" }] ∧
        c'.VolumeMounts.getLast? =
          some { Name := "vol", MountPath := "/otel-auto-instrumentation" } ∧
        ∀ n ∈ engineEnvNames, ∃ e ∈ c'.Env, e.Name = n :=
  ⟨_, _, rfl, rfl, injectDotNetSDK_home_marker_set "vol" "init" hookSpec hookPod 0 _ _ rfl rfl⟩

/-! ## An entry name that the container defines gets no further entry -/

theorem setDotNetEnvVar_filter_present (c : Container) (m v : String) (b : Bool) (n : String)
    (hn : ∃ e ∈ c.Env, e.Name = n) (hb : b = true → m ≠ n) :
    (setDotNetEnvVar c m v b).Env.filter (fun e => decide (e.Name = n)) =
        c.Env.filter (fun e => decide (e.Name = n)) ∧
      ∃ e ∈ (setDotNetEnvVar c m v b).Env, e.Name = n := by
  have hfilter : (setDotNetEnvVar c m v b).Env.filter (fun e => decide (e.Name = n)) =
      c.Env.filter (fun e => decide (e.Name = n)) := by
    by_cases hmn : m = n
    · subst hmn
      cases b with
      | false => rw [setDotNetEnvVar_keep_present c m v hn]
      | true => exact absurd rfl (hb rfl)
    · exact setDotNetEnvVar_filter_ne c m v b n hmn
  refine ⟨hfilter, ?_⟩
  obtain ⟨e, he, hen⟩ := hn
  have hmem : e ∈ c.Env.filter (fun e => decide (e.Name = n)) :=
    List.mem_filter.mpr ⟨he, by simpa using hen⟩
  rw [← hfilter] at hmem
  exact ⟨e, (List.mem_filter.mp hmem).1, hen⟩

theorem applyDotNetEnvVars_filter_present (c : Container) (n : String)
    (hn : ∃ e ∈ c.Env, e.Name = n) (hnc : n ∉ concatEnvNames) :
    (applyDotNetEnvVars c).Env.filter (fun e => decide (e.Name = n)) =
      c.Env.filter (fun e => decide (e.Name = n)) := by
  have hne : ∀ m ∈ concatEnvNames, m ≠ n := fun m hm heq => hnc (heq ▸ hm)
  obtain ⟨f1, p1⟩ := setDotNetEnvVar_filter_present c envDotNetCoreClrEnableProfiling
    dotNetCoreClrEnableProfilingEnabled false n hn (by simp)
  obtain ⟨f2, p2⟩ := setDotNetEnvVar_filter_present _ envDotNetCoreClrProfiler
    dotNetCoreClrProfilerId false n p1 (by simp)
  obtain ⟨f3, p3⟩ := setDotNetEnvVar_filter_present _ envDotNetCoreClrProfilerPath
    dotNetCoreClrProfilerPath false n p2 (by simp)
  obtain ⟨f4, p4⟩ := setDotNetEnvVar_filter_present _ envDotNetStartupHook
    dotNetStartupHookPath true n p3 (fun _ => hne _ (by simp [concatEnvNames]))
  obtain ⟨f5, p5⟩ := setDotNetEnvVar_filter_present _ envDotNetAdditionalDeps
    dotNetAdditionalDepsPath true n p4 (fun _ => hne _ (by simp [concatEnvNames]))
  obtain ⟨f6, p6⟩ := setDotNetEnvVar_filter_present _ envDotNetOTelAutoHome
    dotNetOTelAutoHomePath false n p5 (by simp)
  obtain ⟨f7, _⟩ := setDotNetEnvVar_filter_present _ envDotNetSharedStore
    dotNetSharedStorePath true n p6 (fun _ => hne _ (by simp [concatEnvNames]))
  unfold applyDotNetEnvVars
  simp only []
  rw [f7, f6, f5, f4, f3, f2, f1]

theorem injectSpecEnv_filter_present (c : Container) (envs : List EnvVar) (n : String)
    (hn : ∃ e ∈ c.Env, e.Name = n) :
    (injectSpecEnv c envs).Env.filter (fun e => decide (e.Name = n)) =
        c.Env.filter (fun e => decide (e.Name = n)) ∧
      ∃ e ∈ (injectSpecEnv c envs).Env, e.Name = n := by
  rw [injectSpecEnv_eq_merged]
  have hnil : (mergedEntries (c.Env.map (fun e => e.Name)) envs).filter
      (fun e => decide (e.Name = n)) = [] := by
    rw [List.filter_eq_nil_iff]
    intro d hd
    have hnot := mergedEntries_not_mem _ _ d hd
    obtain ⟨e, he, hen⟩ := hn
    have hdn : d.Name ≠ n := by
      intro heq
      apply hnot
      rw [heq, ← hen]
      exact List.mem_map.mpr ⟨e, he, rfl⟩
    simpa using hdn
  refine ⟨by simp [List.filter_append, hnil], ?_⟩
  obtain ⟨e, he, hen⟩ := hn
  exact ⟨e, List.mem_append_left _ he, hen⟩

theorem injectContainer_filter_present (vn : String) (spec : DotNet) (c : Container)
    (n : String) (hn : ∃ e ∈ c.Env, e.Name = n) (hnc : n ∉ concatEnvNames) :
    (injectContainer vn spec c).Env.filter (fun e => decide (e.Name = n)) =
      c.Env.filter (fun e => decide (e.Name = n)) := by
  obtain ⟨f1, p1⟩ := injectSpecEnv_filter_present c spec.Env n hn
  rw [injectContainer_env, applyDotNetEnvVars_filter_present _ n p1 hnc, f1]

/-- C5 as amended: after a successful call, every variable that is defined both in the target
container's original env list and in the descriptor's env list, and that is not one of the
three colon-joined variables, has the container's original value in the result: every
original entry of that name is found unchanged at its position, and the entries of that name
in the result are exactly the original ones, so neither the descriptor's entry nor an
engine entry of that name is added. -/
theorem injectDotNetSDK_user_precedence (vn icn : String) (spec : DotNet) (pod : Pod)
    (index : Int) (p : Pod) (c : Container) (n : String)
    (h : injectDotNetSDK vn icn spec pod index = some (p, none))
    (hc : pod.Spec.Containers[index.toNat]? = some c)
    (hcn : ∃ e ∈ c.Env, e.Name = n) (hsn : ∃ d ∈ spec.Env, d.Name = n)
    (hn : n ∉ concatEnvNames) :
    ∃ c', p.Spec.Containers[index.toNat]? = some c' ∧
      envValue c'.Env n = envValue c.Env n ∧
      (∀ (k : Nat) (e : EnvVar), c.Env[k]? = some e → e.Name = n → c'.Env[k]? = some e) ∧
      c'.Env.filter (fun e => decide (e.Name = n)) =
        c.Env.filter (fun e => decide (e.Name = n)) ∧
      ∃ d ∈ spec.Env, d.Name = n ∧ (d ∈ c'.Env → d ∈ c.Env) := by
  have hfilter := injectContainer_filter_present vn spec c n hcn hn
  refine ⟨_, injectDotNetSDK_success_container vn icn spec pod index p c h hc, ?_, ?_,
    hfilter, ?_⟩
  · obtain ⟨k, _, hk⟩ := getIndexOfEnv_of_mem hcn
    have hk' := (injectContainer_preserved vn spec c).firstAt hk
    have hfirst := hk
    obtain ⟨⟨e, he, hen⟩, _⟩ := hfirst
    obtain ⟨e', he', _, _, hkeep⟩ := injectContainer_preserved vn spec c k e he
    have hee : e' = e := hkeep (by rw [hen]; exact hn)
    subst hee
    rw [envValue_of_firstAt hk he, envValue_of_firstAt hk' he']
  · intro k e he hen
    obtain ⟨e', he', _, _, hkeep⟩ := injectContainer_preserved vn spec c k e he
    have hee : e' = e := hkeep (by rw [hen]; exact hn)
    rw [he', hee]
  · obtain ⟨d, hd, hdn⟩ := hsn
    refine ⟨d, hd, hdn, ?_⟩
    intro hmem
    have hin : d ∈ (injectContainer vn spec c).Env.filter (fun e => decide (e.Name = n)) :=
      List.mem_filter.mpr ⟨hmem, by simpa using hdn⟩
    rw [hfilter] at hin
    exact (List.mem_filter.mp hin).1

/-- Witness for the amended C5: `FOO` is set to `mine` by the container and to `bar` by the
descriptor; the result keeps the value `mine` and has no entry `FOO=bar`. -/
theorem injectDotNetSDK_user_precedence_witness :
    ∃ (p : Pod) (c : Container),
      injectDotNetSDK "vol" "init" hookSpec hookPod 0 = some (p, none) ∧
      hookPod.Spec.Containers[(0 : Int).toNat]? = some c ∧
      envValue c.Env "FOO" = some "mine" ∧
      ∃ c', p.Spec.Containers[(0 : Int).toNat]? = some c' ∧
        envValue c'.Env "FOO" = envValue c.Env "FOO" ∧
        (∀ (k : Nat) (e : EnvVar), c.Env[k]? = some e → e.Name = "FOO" →
          c'.Env[k]? = some e) ∧
        c'.Env.filter (fun e => decide (e.Name = "FOO")) =
          c.Env.filter (fun e => decide (e.Name = "FOO")) ∧
        ∃ d ∈ hookSpec.Env, d.Name = "FOO" ∧ (d ∈ c'.Env → d ∈ c.Env) :=
  ⟨_, _, rfl, rfl, by decide,
    injectDotNetSDK_user_precedence "vol" "init" hookSpec hookPod 0 _
      { Name := "app"
        Env := [{ Name := "DOTNET_STARTUP_HOOKS", Value := "/a" },
                { Name := "FOO", Value := "mine" }] }
      "FOO" rfl (by decide) (by decide) (by decide) (by decide)⟩

end Instrumentation

namespace Target

/-! ## Lemmas on strings and on `Fingerprint.String` -/

theorem string_append_right_cancel {a b t : String} (h : a ++ t = b ++ t) : a = b := by
  rw [String.ext_iff] at h ⊢
  simp only [String.data_append] at h
  exact List.append_cancel_right h

theorem string_append_left_cancel {a b t : String} (h : t ++ a = t ++ b) : a = b := by
  rw [String.ext_iff] at h ⊢
  simp only [String.data_append] at h
  exact (List.append_right_inj _).mp h

theorem hexDigit_injective : ∀ a b : Fin 16, hexDigit a = hexDigit b → a = b := by
  decide

theorem hexDigits_length (w n : Nat) : (hexDigits w n).length = w := by
  induction w generalizing n with
  | zero => rfl
  | succ w ih => simp [hexDigits, ih]

theorem hexDigits_injective (w a b : Nat) (h : hexDigits w a = hexDigits w b) :
    a % 16 ^ w = b % 16 ^ w := by
  induction w generalizing a b with
  | zero => simp [Nat.mod_one]
  | succ w ih =>
    simp only [hexDigits] at h
    obtain ⟨h1, h2⟩ := List.append_inj' h rfl
    have hrest := ih _ _ h1
    have hd : hexDigit (a % 16) = hexDigit (b % 16) := by simpa using h2
    have hlast : a % 16 = b % 16 := by
      have := hexDigit_injective ⟨a % 16, Nat.mod_lt _ (by decide)⟩
        ⟨b % 16, Nat.mod_lt _ (by decide)⟩ hd
      exact Fin.mk.inj this
    rw [Nat.pow_succ', Nat.mod_mul, Nat.mod_mul, hrest, hlast]

theorem Fingerprint.String_injective (a b : Nat) (ha : a < 2 ^ 64) (hb : b < 2 ^ 64)
    (h : Fingerprint.String a = Fingerprint.String b) : a = b := by
  have hdata : hexDigits 16 a = hexDigits 16 b := by
    have := congrArg String.data h
    simpa [Fingerprint.String] using this
  have hmod := hexDigits_injective 16 a b hdata
  have h16 : (16 : Nat) ^ 16 = 2 ^ 64 := by norm_num
  rw [h16, Nat.mod_eq_of_lt ha, Nat.mod_eq_of_lt hb] at hmod
  exact hmod

/-! ## The fingerprint is a 64-bit number -/

theorem hashAddByte_lt (h b : Nat) : hashAddByte h b < 2 ^ 64 :=
  Nat.mod_lt _ (by norm_num)

theorem foldl_lt_of_step {α : Type} (f : Nat → α → Nat) (hf : ∀ x a, f x a < 2 ^ 64)
    (l : List α) (init : Nat) (hinit : init < 2 ^ 64) : l.foldl f init < 2 ^ 64 := by
  induction l generalizing init with
  | nil => exact hinit
  | cons a rest ih => exact ih _ (hf init a)

theorem labelSetToFingerprint_lt (ls : LabelSet) : labelSetToFingerprint ls < 2 ^ 64 := by
  unfold labelSetToFingerprint
  split
  · norm_num [emptyLabelSignature, hashNew, offset64]
  · apply foldl_lt_of_step
    · intro x a
      exact hashAddByte_lt _ _
    · norm_num [hashNew, offset64]

/-! ## The claims on `Item.Hash` -/

/-- C13: two items with the same label set that differ in exactly one of job name and target
URL, the other being equal, have different `Hash()` strings. -/
theorem Item.Hash_differs_on_job_or_url (t1 t2 : Item) (hl : t1.Label = t2.Label)
    (h : (t1.JobName ≠ t2.JobName ∧ t1.TargetURL = t2.TargetURL) ∨
      (t1.JobName = t2.JobName ∧ t1.TargetURL ≠ t2.TargetURL)) :
    t1.Hash ≠ t2.Hash := by
  intro heq
  unfold Item.Hash at heq
  rw [hl] at heq
  have hju : t1.JobName ++ t1.TargetURL = t2.JobName ++ t2.TargetURL :=
    string_append_right_cancel heq
  rcases h with ⟨hj, hu⟩ | ⟨hj, hu⟩
  · rw [hu] at hju
    exact hj (string_append_right_cancel hju)
  · rw [hj] at hju
    exact hu (string_append_left_cancel hju)

/-- Witness for C13: the jobs `a` and `b` with the same URL, and the URLs `u` and `v` with
the same job. -/
theorem Item.Hash_differs_on_job_or_url_witness :
    (NewItem "a" "u" { entries := [("l", "1")] } "c").Hash ≠
        (NewItem "b" "u" { entries := [("l", "1")] } "c").Hash ∧
      (NewItem "a" "u" { entries := [("l", "1")] } "c").Hash ≠
        (NewItem "a" "v" { entries := [("l", "1")] } "c").Hash :=
  ⟨Item.Hash_differs_on_job_or_url (NewItem "a" "u" { entries := [("l", "1")] } "c")
      (NewItem "b" "u" { entries := [("l", "1")] } "c") rfl (Or.inl ⟨by decide, rfl⟩),
   Item.Hash_differs_on_job_or_url (NewItem "a" "u" { entries := [("l", "1")] } "c")
      (NewItem "a" "v" { entries := [("l", "1")] } "c") rfl (Or.inr ⟨rfl, by decide⟩)⟩

/-- C19: `Hash` is not injective on the pair of job name and target URL: for every label set,
the item with job `a` and URL `b` and the item with job `ab` and the empty URL have the same
`Hash()` string. -/
theorem Item.Hash_not_injective_on_job_url (l : LabelSet) (c1 c2 : String) :
    (NewItem "a" "b" l c1).Label = (NewItem "ab" "" l c2).Label ∧
      ((NewItem "a" "b" l c1).JobName, (NewItem "a" "b" l c1).TargetURL) ≠
        ((NewItem "ab" "" l c2).JobName, (NewItem "ab" "" l c2).TargetURL) ∧
      (NewItem "a" "b" l c1).Hash = (NewItem "ab" "" l c2).Hash := by
  refine ⟨rfl, ?_, ?_⟩
  · show (("a", "b") : String × String) ≠ ("ab", "")
    decide
  show "a" ++ "b" ++ Fingerprint.String l.Fingerprint =
    "ab" ++ "" ++ Fingerprint.String l.Fingerprint
  rfl

/-! ## The fingerprint does not depend on the order of the entries -/

theorem nameLE_total (a b : String) : nameLE a b ∨ nameLE b a := le_total _ _

theorem nameLE_trans (a b c : String) (h1 : nameLE a b) (h2 : nameLE b c) : nameLE a c :=
  le_trans h1 h2

theorem nameLE_antisymm (a b : String) (h1 : nameLE a b) (h2 : nameLE b a) : a = b := by
  have hkey : a.data.map Char.toNat = b.data.map Char.toNat := le_antisymm h1 h2
  have hinj : Function.Injective Char.toNat := by
    intro c d hcd
    rw [← Char.ofNat_toNat c, ← Char.ofNat_toNat d, hcd]
  exact String.ext (List.map_injective_iff.mpr hinj hkey)

theorem sortedNames_perm (l1 l2 : List String) (hp : l1.Perm l2) :
    l1.insertionSort nameLE = l2.insertionSort nameLE := by
  haveI : IsTotal String nameLE := ⟨nameLE_total⟩
  haveI : IsTrans String nameLE := ⟨nameLE_trans⟩
  haveI : IsAntisymm String nameLE := ⟨nameLE_antisymm⟩
  apply List.eq_of_perm_of_sorted _ (List.sorted_insertionSort nameLE l1)
    (List.sorted_insertionSort nameLE l2)
  exact ((List.perm_insertionSort nameLE l1).trans hp).trans
    (List.perm_insertionSort nameLE l2).symm

theorem entryValue_of_not_mem (l : List (String × String)) (k : String)
    (h : k ∉ l.map Prod.fst) : entryValue l k = "" := by
  induction l with
  | nil => rfl
  | cons x rest ih =>
    obtain ⟨k0, v0⟩ := x
    simp only [List.map_cons, List.mem_cons, not_or] at h
    simp only [entryValue]
    rw [if_neg (fun heq => h.1 heq.symm)]
    exact ih h.2

theorem entryValue_of_mem (l : List (String × String)) (k v : String)
    (hnodup : (l.map Prod.fst).Nodup) (h : (k, v) ∈ l) : entryValue l k = v := by
  induction l with
  | nil => simp at h
  | cons x rest ih =>
    obtain ⟨k0, v0⟩ := x
    rw [List.map_cons, List.nodup_cons] at hnodup
    simp only [entryValue]
    rcases List.mem_cons.mp h with heq | hmem
    · cases heq
      simp
    · have hne : k0 ≠ k := by
        intro heq
        apply hnodup.1
        rw [heq]
        exact List.mem_map.mpr ⟨(k, v), hmem, rfl⟩
      rw [if_neg hne]
      exact ih hnodup.2 hmem

theorem entryValue_perm (l1 l2 : List (String × String)) (hp : l1.Perm l2)
    (hnodup : (l1.map Prod.fst).Nodup) (k : String) : entryValue l1 k = entryValue l2 k := by
  have hnodup2 : (l2.map Prod.fst).Nodup := (hp.map Prod.fst).nodup_iff.mp hnodup
  by_cases hk : k ∈ l1.map Prod.fst
  · obtain ⟨⟨k0, v⟩, hmem, hfst⟩ := List.mem_map.mp hk
    simp only at hfst
    subst hfst
    rw [entryValue_of_mem l1 k0 v hnodup hmem,
      entryValue_of_mem l2 k0 v hnodup2 (hp.mem_iff.mp hmem)]
  · have hk2 : k ∉ l2.map Prod.fst := fun h => hk ((hp.map Prod.fst).mem_iff.mpr h)
    rw [entryValue_of_not_mem l1 k hk, entryValue_of_not_mem l2 k hk2]

theorem labelSetToFingerprint_perm (l1 l2 : LabelSet) (hp : l1.entries.Perm l2.entries)
    (hwf : WellFormed l1) : labelSetToFingerprint l1 = labelSetToFingerprint l2 := by
  unfold labelSetToFingerprint
  have hlen : l1.entries.length = l2.entries.length := hp.length_eq
  have hnames : l1.names.insertionSort nameLE = l2.names.insertionSort nameLE :=
    sortedNames_perm _ _ (hp.map Prod.fst)
  have hval : l1.value = l2.value := by
    funext k
    exact entryValue_perm _ _ hp hwf k
  rw [hlen, hnames, hval]

theorem setEntry_absent (l : List (String × String)) (k v : String)
    (h : k ∉ l.map Prod.fst) : setEntry l k v = l ++ [(k, v)] := by
  induction l with
  | nil => rfl
  | cons x rest ih =>
    obtain ⟨k0, v0⟩ := x
    simp only [List.map_cons, List.mem_cons, not_or] at h
    simp only [setEntry]
    rw [if_neg (fun heq => h.1 heq.symm), ih h.2]
    rfl

theorem foldl_set_nodup (pairs acc : List (String × String))
    (h : ((acc ++ pairs).map Prod.fst).Nodup) :
    pairs.foldl (fun ls pair => LabelSet.set ls pair.1 pair.2) { entries := acc } =
      { entries := acc ++ pairs } := by
  induction pairs generalizing acc with
  | nil => simp
  | cons x rest ih =>
    have hx : x.1 ∉ acc.map Prod.fst := by
      intro hmem
      rw [List.map_append, List.map_cons] at h
      have hdisj := (List.nodup_append.mp h).2.2
      exact hdisj hmem (List.mem_cons_self _ _)
    have hstep : LabelSet.set { entries := acc } x.1 x.2 = { entries := acc ++ [x] } := by
      unfold LabelSet.set
      rw [setEntry_absent acc x.1 x.2 hx]
    rw [List.foldl_cons, hstep, ih (acc ++ [x]) (by simpa using h)]
    simp

theorem LabelSet.ofPairs_nodup (pairs : List (String × String))
    (h : (pairs.map Prod.fst).Nodup) : LabelSet.ofPairs pairs = { entries := pairs } := by
  unfold LabelSet.ofPairs
  rw [foldl_set_nodup pairs [] (by simpa using h)]
  simp

/-- C12: `NewItem(j,u,l,c).Hash()` is `j`, then `u`, then the fingerprint string of `l`,
whatever the collector name, and two items built from the same job, URL and labels have the
same hash whatever the order in which the labels (of pairwise distinct names) were inserted
into the label set. -/
theorem NewItem_Hash (j u : String) (l : LabelSet) (c1 c2 : String)
    (pairs1 pairs2 : List (String × String)) (hperm : pairs1.Perm pairs2)
    (hnodup : (pairs1.map Prod.fst).Nodup) :
    (NewItem j u l c1).Hash = (NewItem j u l c2).Hash ∧
      (NewItem j u l c1).Hash = j ++ u ++ Fingerprint.String l.Fingerprint ∧
      (NewItem j u (LabelSet.ofPairs pairs1) c1).Hash =
        (NewItem j u (LabelSet.ofPairs pairs2) c2).Hash := by
  refine ⟨rfl, rfl, ?_⟩
  have hnodup2 : (pairs2.map Prod.fst).Nodup := (hperm.map Prod.fst).nodup_iff.mp hnodup
  rw [LabelSet.ofPairs_nodup pairs1 hnodup, LabelSet.ofPairs_nodup pairs2 hnodup2]
  show j ++ u ++ Fingerprint.String (labelSetToFingerprint { entries := pairs1 }) =
    j ++ u ++ Fingerprint.String (labelSetToFingerprint { entries := pairs2 })
  rw [labelSetToFingerprint_perm { entries := pairs1 } { entries := pairs2 } hperm hnodup]

/-- Witness for C12: the labels `a=1` and `b=2` inserted in the two orders. -/
theorem NewItem_Hash_witness :
    (NewItem "job" "url" { entries := [] } "c1").Hash =
        (NewItem "job" "url" { entries := [] } "c2").Hash ∧
      (NewItem "job" "url" { entries := [] } "c1").Hash =
        "job" ++ "url" ++ Fingerprint.String (LabelSet.Fingerprint { entries := [] }) ∧
      (NewItem "job" "url" (LabelSet.ofPairs [("a", "1"), ("b", "2")]) "c1").Hash =
        (NewItem "job" "url" (LabelSet.ofPairs [("b", "2"), ("a", "1")]) "c2").Hash :=
  NewItem_Hash "job" "url" { entries := [] } "c1" "c2" [("a", "1"), ("b", "2")]
    [("b", "2"), ("a", "1")] (List.Perm.swap _ _ _) (by decide)

/-- C14 fails as stated: there are two items with the same job name and target URL whose
label sets differ in the value of exactly one label and whose `Hash()` strings are equal.
The fingerprint is a 64-bit number, so among the label sets with the single label `l` and
the values `""`, `"a"`, `"aa"`, ... two have the same fingerprint. -/
theorem Item.Hash_collision_on_label_value :
    ∃ t1 t2 : Item, t1.JobName = t2.JobName ∧ t1.TargetURL = t2.TargetURL ∧
      WellFormed t1.Label ∧ WellFormed t2.Label ∧ DiffersInOneValue t1.Label t2.Label ∧
      t1.Hash = t2.Hash := by
  have hpigeon : ∃ x ∈ Finset.range (2 ^ 64 + 1), ∃ y ∈ Finset.range (2 ^ 64 + 1),
      x ≠ y ∧
        labelSetToFingerprint { entries := [("l", String.mk (List.replicate x 'a'))] } =
          labelSetToFingerprint { entries := [("l", String.mk (List.replicate y 'a'))] } :=
    Finset.exists_ne_map_eq_of_card_lt_of_maps_to
      (show (Finset.range (2 ^ 64)).card < (Finset.range (2 ^ 64 + 1)).card by simp)
      (fun n _ => Finset.mem_range.mpr (labelSetToFingerprint_lt _))
  obtain ⟨x, _, y, _, hxy, hfp⟩ := hpigeon
  have hval : String.mk (List.replicate x 'a') ≠ String.mk (List.replicate y 'a') := by
    intro heq
    have hdata := congrArg (fun s => s.data.length) heq
    simp at hdata
    exact hxy hdata
  refine ⟨NewItem "j" "u" { entries := [("l", String.mk (List.replicate x 'a'))] } "c",
    NewItem "j" "u" { entries := [("l", String.mk (List.replicate y 'a'))] } "c",
    rfl, rfl, ?_, ?_, ?_, ?_⟩
  · simp [WellFormed, NewItem, LabelSet.names]
  · simp [WellFormed, NewItem, LabelSet.names]
  · refine ⟨fun n => Iff.rfl, "l", by simp [NewItem, LabelSet.names], ?_, ?_⟩
    · simpa [NewItem, LabelSet.value, entryValue] using hval
    · intro n hn
      have hne : ¬ "l" = n := fun h => hn h.symm
      simp [NewItem, LabelSet.value, entryValue, hne]
  · show "j" ++ "u" ++ Fingerprint.String
        (labelSetToFingerprint { entries := [("l", String.mk (List.replicate x 'a'))] }) =
      "j" ++ "u" ++ Fingerprint.String
        (labelSetToFingerprint { entries := [("l", String.mk (List.replicate y 'a'))] })
    rw [hfp]

/-- C14 as amended: two items with the same job name and target URL have different `Hash()`
strings exactly when the fingerprints of their label sets are different. -/
theorem Item.Hash_differs_iff_fingerprint (t1 t2 : Item) (hj : t1.JobName = t2.JobName)
    (hu : t1.TargetURL = t2.TargetURL) :
    t1.Hash ≠ t2.Hash ↔ t1.Label.Fingerprint ≠ t2.Label.Fingerprint := by
  unfold Item.Hash
  rw [hj, hu]
  constructor
  · intro hne hfp
    exact hne (by rw [hfp])
  · intro hne heq
    apply hne
    exact Fingerprint.String_injective _ _ (labelSetToFingerprint_lt _)
      (labelSetToFingerprint_lt _) (string_append_left_cancel heq)

/-- Witness for the amended C14: the label `l` with the values `1` and `2`. -/
theorem Item.Hash_differs_iff_fingerprint_witness :
    (NewItem "j" "u" { entries := [("l", "1")] } "c").Hash ≠
      (NewItem "j" "u" { entries := [("l", "2")] } "c").Hash :=
  (Item.Hash_differs_iff_fingerprint (NewItem "j" "u" { entries := [("l", "1")] } "c")
    (NewItem "j" "u" { entries := [("l", "2")] } "c") rfl rfl).mpr (by decide)

end Target
